import Mathlib

/-!
# The Llama / Llama 2 lifetime-class allocation layer

A shallow embedding of the three translation units of the repository

* `llama.cpp`            (namespace `Llama`),
* `llama2.cpp`           (namespace `Llama2`),
* `llama2_benchmark.cpp` (namespace `Benchmark`),

followed by theorems about the embedded functions.

Modelling conventions.

* A `void*` is a natural number, `0` being the null pointer.
* `std::unordered_map<K, V>` is a finite partial function `K → Option V`.
  `m[k]` reads the stored value, or the value-initialised default when the key
  is absent (and the entry then exists afterwards).
* `std::vector<void*>` is a `List Addr`; `push_back` appends at the end and the
  erase-remove idiom is `List.filter`.
* `thread_local` storage is a family of ledgers indexed by the calling thread;
  every function takes the identity of the thread that calls it.
* The C library is outside the repository.  What `malloc(size)` returns is an
  argument (`malloc_result`) of the call that performs it, every `malloc` and
  `free` performed is appended to `World.provider_calls`, `std::hash` is a
  function `hasher : String → Nat` and the values successive `rand()` calls
  produce are a sequence `rand_seq : Nat → Int`.
* The counters are `int`s: `++` and `--` are computed on the integers and
  reduced to 32-bit two's complement (`int_wrap`), which is what they yield on
  the usual targets where the C++ standard leaves the overflow undefined.
  Statements about a count that would leave the `int` range carry the bound
  as a hypothesis.
* Mutexes are not modelled: calls are executed one after the other.
-/

namespace LlamaAlloc

/-- An address (`void*`); `0` is the null pointer. -/
abbrev Addr := Nat

/-- The identity of a thread, selecting its `thread_local` ledger. -/
abbrev ThreadId := Nat

/-- A `std::unordered_map<K, V>`, as a finite partial function. -/
abbrev UMap (K V : Type) := K → Option V

/-- The map without entries. -/
def UMap.empty {K V : Type} : UMap K V := fun _ => none

/-- The value `m[k]` refers to: the stored one, or the default `d` that
`operator[]` inserts when `k` has no entry. -/
def UMap.value {K V : Type} (m : UMap K V) (k : K) (d : V) : V := (m k).getD d

/-- The map after `m[k] = v`. -/
def UMap.put {K V : Type} [DecidableEq K] (m : UMap K V) (k : K) (v : V) : UMap K V :=
  fun x => if x = k then some v else m x

/-- The map after erasing every entry whose value satisfies `dead`. -/
def UMap.erase_if {K V : Type} (m : UMap K V) (dead : V → Bool) : UMap K V :=
  fun k => match m k with
    | some v => if dead v then none else some v
    | none => none

/-- The result of an `int` operation, reduced to 32-bit two's complement. -/
def int_wrap (n : Int) : Int := (n + 2147483648) % 4294967296 - 2147483648

/-- The struct `MemoryRegion` (its `region_lock`, where present, is not modelled). -/
structure MemoryRegion where
  allocated_blocks : List Addr
deriving DecidableEq, Repr

/-- One call made to the raw memory provider. -/
inductive ProviderCall where
  | malloc (size : Nat) (ret : Addr)
  | free (ptr : Addr)
deriving DecidableEq, Repr

/-- The global state of a translation unit, with the observable history of the
C library next to it. -/
structure World where
  /-- The global `std::unordered_map<int, MemoryRegion> lifetime_memory_map`. -/
  lifetime_memory_map : UMap Int MemoryRegion
  /-- The `thread_local std::unordered_map<void*, int> thread_local_reference_count`,
  one per thread. -/
  thread_local_reference_count : ThreadId → UMap Addr Int
  /-- The calls made to `malloc` and `free` so far, oldest first. -/
  provider_calls : List ProviderCall
  /-- The number of `rand()` calls made so far. -/
  rand_calls : Nat

/-- The state at program start: no Region, no ledger entry, no library call made. -/
def World.initial : World :=
  { lifetime_memory_map := UMap.empty
    thread_local_reference_count := fun _ => UMap.empty
    provider_calls := []
    rand_calls := 0 }

/-- The `allocated_blocks` of the Region of class `c` (empty when the table has
no Region for `c`, which is what `lifetime_memory_map[c]` would create). -/
def World.blocks (w : World) (c : Int) : List Addr :=
  (w.lifetime_memory_map.value c ⟨[]⟩).allocated_blocks

/-- The ledger entry of thread `t` for address `p`, if there is one. -/
def World.entry (w : World) (t : ThreadId) (p : Addr) : Option Int :=
  w.thread_local_reference_count t p

/-- The pending count `thread_local_reference_count[p]` reads on thread `t`. -/
def World.count (w : World) (t : ThreadId) (p : Addr) : Int :=
  (w.thread_local_reference_count t).value p 0

/-- The state after `thread_local_reference_count[p] = n` on thread `t`. -/
def World.set_count (w : World) (t : ThreadId) (p : Addr) (n : Int) : World :=
  { w with thread_local_reference_count :=
      fun u => if u = t then (w.thread_local_reference_count t).put p n
               else w.thread_local_reference_count u }

/-- The state after the vector of Region `c` has been replaced by `bs`. -/
def World.set_blocks (w : World) (c : Int) (bs : List Addr) : World :=
  { w with lifetime_memory_map := w.lifetime_memory_map.put c ⟨bs⟩ }

/-- The state after one more call to the raw provider. -/
def World.log (w : World) (e : ProviderCall) : World :=
  { w with provider_calls := w.provider_calls ++ [e] }

/-- The number of times `free(p)` has been handed to the raw provider. -/
def World.releases (w : World) (p : Addr) : Nat :=
  w.provider_calls.count (ProviderCall.free p)

/-- The number of times `malloc` has returned `p`. -/
def World.acquisitions (w : World) (p : Addr) : Nat :=
  (w.provider_calls.filter fun e =>
    match e with
    | ProviderCall.malloc _ q => decide (q = p)
    | ProviderCall.free _ => false).length

/-- Whether, after the provider calls `calls`, address `p` is handed out: the
most recent call about `p` is a `malloc` that returned it. -/
def handed_out (calls : List ProviderCall) (p : Addr) : Bool :=
  calls.foldl (fun b e =>
    match e with
    | ProviderCall.malloc _ q => if q = p then true else b
    | ProviderCall.free q => if q = p then false else b) false

/-- Whether the provider has handed out `p` and not been given it back. -/
def World.held (w : World) (p : Addr) : Bool := handed_out w.provider_calls p

/-! ## `llama.cpp` -/

namespace Llama

/-- `int predict_lifetime(std::string stack_trace)` of `llama.cpp`:
`return rand() % 3;`. -/
def predict_lifetime (rand_seq : Nat → Int) (_stack_trace : String) (w : World) :
    Int × World :=
  (Int.tmod (rand_seq w.rand_calls) 3, { w with rand_calls := w.rand_calls + 1 })

/-- `void* llama_malloc(size_t size, std::string stack_trace)` of `llama.cpp`. -/
def llama_malloc (rand_seq : Nat → Int) (size : Nat) (stack_trace : String)
    (malloc_result : Addr) (w : World) : Addr × World :=
  let (lifetime_class, w1) := predict_lifetime rand_seq stack_trace w
  let ptr := malloc_result
  let w2 := w1.log (ProviderCall.malloc size ptr)
  (ptr, w2.set_blocks lifetime_class (w2.blocks lifetime_class ++ [ptr]))

/-- `void llama_free(void* ptr, int lifetime_class)` of `llama.cpp`. -/
def llama_free (ptr : Addr) (lifetime_class : Int) (w : World) : World :=
  let w1 := w.set_blocks lifetime_class
    ((w.blocks lifetime_class).filter fun q => decide (q ≠ ptr))
  w1.log (ProviderCall.free ptr)

end Llama

/-! ## `llama2.cpp` -/

namespace Llama2

/-- `int predict_lifetime_transformer(std::string stack_trace)` of `llama2.cpp`:
`return rand() % 3;`. -/
def predict_lifetime_transformer (rand_seq : Nat → Int) (_stack_trace : String)
    (w : World) : Int × World :=
  (Int.tmod (rand_seq w.rand_calls) 3, { w with rand_calls := w.rand_calls + 1 })

/-- `void* llama2_malloc(size_t size, std::string stack_trace)` of `llama2.cpp`. -/
def llama2_malloc (rand_seq : Nat → Int) (t : ThreadId) (size : Nat)
    (stack_trace : String) (malloc_result : Addr) (w : World) : Addr × World :=
  let (lifetime_class, w1) := predict_lifetime_transformer rand_seq stack_trace w
  let ptr := malloc_result
  let w2 := w1.log (ProviderCall.malloc size ptr)
  let w3 := w2.set_blocks lifetime_class (w2.blocks lifetime_class ++ [ptr])
  (ptr, w3.set_count t ptr (int_wrap (w3.count t ptr + 1)))

/-- `void llama2_free(void* ptr, int lifetime_class)` of `llama2.cpp`. -/
def llama2_free (t : ThreadId) (ptr : Addr) (lifetime_class : Int) (w : World) : World :=
  let w1 := w.set_count t ptr (int_wrap (w.count t ptr - 1))
  if w1.count t ptr ≤ 0 then
    let w2 := w1.set_blocks lifetime_class
      ((w1.blocks lifetime_class).filter fun q => decide (q ≠ ptr))
    w2.log (ProviderCall.free ptr)
  else
    w1

/-- `void synchronize_reference_counts()` of `llama2.cpp`, called on thread
`t`, as the relation between the state before and the state after the call.
The range-based `for` erases, by key, the very entry its iterator stands on;
that iterator is invalid from then on, and the loop goes on to advance it. The
call therefore has a defined outcome only when it erases nothing, that is when
the thread's ledger has no entry with a count `<= 0`, and the outcome is then
the unchanged state. -/
inductive synchronize_reference_counts (t : ThreadId) : World → World → Prop where
  | nothing_erased (w : World) (h : ∀ p n, w.entry t p = some n → 0 < n) :
      synchronize_reference_counts t w w

end Llama2

/-! ## `llama2_benchmark.cpp` -/

namespace Benchmark

/-- `int predict_lifetime_transformer(const std::string& stack_trace)` of
`llama2_benchmark.cpp`: `return hasher(stack_trace) % 3;`, an unsigned
remainder converted to `int`. -/
def predict_lifetime_transformer (hasher : String → Nat) (stack_trace : String)
    (w : World) : Int × World :=
  (((hasher stack_trace % 3 : Nat) : Int), w)

/-- `void* llama2_malloc(size_t size, const std::string& stack_trace)` of
`llama2_benchmark.cpp`. -/
def llama2_malloc (hasher : String → Nat) (t : ThreadId) (size : Nat)
    (stack_trace : String) (malloc_result : Addr) (w : World) : Addr × World :=
  let (lifetime_class, w1) := predict_lifetime_transformer hasher stack_trace w
  let ptr := malloc_result
  let w2 := w1.log (ProviderCall.malloc size ptr)
  let w3 := w2.set_blocks lifetime_class (w2.blocks lifetime_class ++ [ptr])
  (ptr, w3.set_count t ptr (int_wrap (w3.count t ptr + 1)))

/-- `void llama2_free(void* ptr, int lifetime_class)` of `llama2_benchmark.cpp`. -/
def llama2_free (t : ThreadId) (ptr : Addr) (lifetime_class : Int) (w : World) : World :=
  let w1 := w.set_count t ptr (int_wrap (w.count t ptr - 1))
  if w1.count t ptr ≤ 0 then
    let w2 := w1.set_blocks lifetime_class
      ((w1.blocks lifetime_class).filter fun q => decide (q ≠ ptr))
    w2.log (ProviderCall.free ptr)
  else
    w1

/-- `void synchronize_reference_counts()` of `llama2_benchmark.cpp`, called on
thread `t`: the loop erases from that thread's ledger every entry whose count
is `<= 0` and steps over the others. -/
def synchronize_reference_counts (t : ThreadId) (w : World) : World :=
  { w with thread_local_reference_count :=
      fun u => if u = t then (w.thread_local_reference_count t).erase_if fun n => decide (n ≤ 0)
               else w.thread_local_reference_count u }

/-- The loop of `benchmark_allocation`, with `remaining` iterations to go from
index `i` on: each iteration allocates with the context
`"benchmark_stack_trace_" + std::to_string(i)` and releases the block at once
with the class of that context. `malloc_results i` is what `malloc` returns in
iteration `i`. -/
def benchmark_loop (hasher : String → Nat) (t : ThreadId) (allocation_size : Nat)
    (malloc_results : Nat → Addr) : Nat → Nat → World → World
  | 0, _, w => w
  | remaining + 1, i, w =>
      let stack_trace := "benchmark_stack_trace_" ++ toString i
      let (ptr, w1) := llama2_malloc hasher t allocation_size stack_trace (malloc_results i) w
      let (lifetime_class, w2) := predict_lifetime_transformer hasher stack_trace w1
      benchmark_loop hasher t allocation_size malloc_results remaining (i + 1)
        (llama2_free t ptr lifetime_class w2)

/-- `void benchmark_allocation(int num_allocations, size_t allocation_size)` of
`llama2_benchmark.cpp`, run on thread `t`, without the clock readings and the
line it prints. A `num_allocations` below 1 runs no iteration. -/
def benchmark_allocation (hasher : String → Nat) (t : ThreadId) (num_allocations : Int)
    (allocation_size : Nat) (malloc_results : Nat → Addr) (w : World) : World :=
  benchmark_loop hasher t allocation_size malloc_results num_allocations.toNat 0 w

/-- One call of the allocation layer, as a thread issues it. -/
inductive Call where
  | malloc (t : ThreadId) (size : Nat) (stack_trace : String) (malloc_result : Addr)
  | free (t : ThreadId) (ptr : Addr) (lifetime_class : Int)
  | synchronize (t : ThreadId)
deriving DecidableEq, Repr

/-- The state after one call. -/
def step (hasher : String → Nat) (w : World) : Call → World
  | Call.malloc t size stack_trace malloc_result =>
      (llama2_malloc hasher t size stack_trace malloc_result w).2
  | Call.free t ptr lifetime_class => llama2_free t ptr lifetime_class w
  | Call.synchronize t => synchronize_reference_counts t w

/-- The state after a sequence of calls, executed one after the other. -/
def run (hasher : String → Nat) (w : World) (calls : List Call) : World :=
  calls.foldl (step hasher) w

/-- The thread that issues a call. -/
def Call.thread : Call → ThreadId
  | Call.malloc t _ _ _ => t
  | Call.free t _ _ => t
  | Call.synchronize t => t

/-- The conditions of use under which a call is issued in state `w`: the
provider returns from `malloc` only an address it does not consider handed out,
and a release names a block that is contained in the Region of the class it
passes. -/
def admissible (w : World) : Call → Bool
  | Call.malloc _ _ _ malloc_result => !(w.held malloc_result)
  | Call.free _ ptr lifetime_class => decide (ptr ∈ w.blocks lifetime_class)
  | Call.synchronize _ => true

/-- Every call of the sequence is admissible in the state it is issued in. -/
def well_used (hasher : String → Nat) : World → List Call → Bool
  | _, [] => true
  | w, call :: rest => admissible w call && well_used hasher (step hasher w call) rest

/-- The class table of the handles after one more call: an allocation records,
for the address it returns, the class the classifier gave it. -/
def record_class (hasher : String → Nat) (w : World) (g : Addr → Option Int) :
    Call → Addr → Option Int
  | Call.malloc _ _ stack_trace malloc_result => fun q =>
      if q = malloc_result then some (predict_lifetime_transformer hasher stack_trace w).1
      else g q
  | Call.free _ _ _ => g
  | Call.synchronize _ => g

/-- The class in which each address was allocated most recently, over a
sequence of calls starting in state `w` with class table `g`. -/
def allocation_class (hasher : String → Nat) :
    World → (Addr → Option Int) → List Call → Addr → Option Int
  | _, g, [] => g
  | w, g, call :: rest =>
      allocation_class hasher (step hasher w call) (record_class hasher w g call) rest

/-- The Regions agree with the provider: an address contained in a Region is
handed out, and no address is contained in the Regions of two classes. -/
def regions_consistent (w : World) : Prop :=
  (∀ p c, p ∈ w.blocks c → w.held p = true)
  ∧ (∀ p c1 c2, p ∈ w.blocks c1 → p ∈ w.blocks c2 → c1 = c2)

/-- The Regions and the ledger of thread `t` agree with the provider and with
the class table `g` of the handles: a handed-out address has count 1 and is
contained in the Region of its class, any other address has count 0 and is in no
Region, and an address is only contained in the Region of its class. -/
def ledger_consistent (t : ThreadId) (w : World) (g : Addr → Option Int) : Prop :=
  (∀ p, w.held p = true → w.count t p = 1 ∧ ∃ c, g p = some c ∧ p ∈ w.blocks c)
  ∧ (∀ p, w.held p = false → w.count t p = 0 ∧ ∀ c, p ∉ w.blocks c)
  ∧ (∀ p c, p ∈ w.blocks c → g p = some c)

end Benchmark

/-! ## Basic facts about the state accessors -/

theorem int_wrap_of_range (n : Int) (h1 : -2147483648 ≤ n) (h2 : n < 2147483648) :
    int_wrap n = n := by
  unfold int_wrap
  omega

@[simp] theorem blocks_set_blocks (w : World) (c c' : Int) (bs : List Addr) :
    (w.set_blocks c bs).blocks c' = if c' = c then bs else w.blocks c' := by
  unfold World.set_blocks World.blocks UMap.value UMap.put
  by_cases h : c' = c <;> simp [h]

@[simp] theorem blocks_set_count (w : World) (t : ThreadId) (p : Addr) (n : Int) (c : Int) :
    (w.set_count t p n).blocks c = w.blocks c := rfl

@[simp] theorem blocks_log (w : World) (e : ProviderCall) (c : Int) :
    (w.log e).blocks c = w.blocks c := rfl

@[simp] theorem entry_set_count (w : World) (t u : ThreadId) (p q : Addr) (n : Int) :
    (w.set_count t p n).entry u q = if u = t ∧ q = p then some n else w.entry u q := by
  unfold World.set_count World.entry UMap.put
  by_cases h : u = t <;> by_cases h' : q = p <;> simp [h, h']

@[simp] theorem entry_set_blocks (w : World) (c : Int) (bs : List Addr) (t : ThreadId)
    (p : Addr) : (w.set_blocks c bs).entry t p = w.entry t p := rfl

@[simp] theorem entry_log (w : World) (e : ProviderCall) (t : ThreadId) (p : Addr) :
    (w.log e).entry t p = w.entry t p := rfl

theorem count_eq_entry (w : World) (t : ThreadId) (p : Addr) :
    w.count t p = (w.entry t p).getD 0 := rfl

@[simp] theorem count_set_count (w : World) (t u : ThreadId) (p q : Addr) (n : Int) :
    (w.set_count t p n).count u q = if u = t ∧ q = p then n else w.count u q := by
  rw [count_eq_entry, entry_set_count, count_eq_entry]
  by_cases h : u = t ∧ q = p <;> simp [h]

@[simp] theorem count_set_blocks (w : World) (c : Int) (bs : List Addr) (t : ThreadId)
    (p : Addr) : (w.set_blocks c bs).count t p = w.count t p := rfl

@[simp] theorem count_log (w : World) (e : ProviderCall) (t : ThreadId) (p : Addr) :
    (w.log e).count t p = w.count t p := rfl

@[simp] theorem calls_set_count (w : World) (t : ThreadId) (p : Addr) (n : Int) :
    (w.set_count t p n).provider_calls = w.provider_calls := rfl

@[simp] theorem calls_set_blocks (w : World) (c : Int) (bs : List Addr) :
    (w.set_blocks c bs).provider_calls = w.provider_calls := rfl

@[simp] theorem calls_log (w : World) (e : ProviderCall) :
    (w.log e).provider_calls = w.provider_calls ++ [e] := rfl

namespace Benchmark

/-- The class `llama2_malloc` computes for a context. -/
theorem class_eq (hasher : String → Nat) (stack_trace : String) (w : World) :
    (predict_lifetime_transformer hasher stack_trace w).1
      = ((hasher stack_trace % 3 : Nat) : Int) := rfl

theorem malloc_blocks (hasher : String → Nat) (t : ThreadId) (size : Nat)
    (stack_trace : String) (p : Addr) (w : World) (c : Int) :
    (llama2_malloc hasher t size stack_trace p w).2.blocks c
      = if c = ((hasher stack_trace % 3 : Nat) : Int) then w.blocks c ++ [p]
        else w.blocks c := by
  simp only [llama2_malloc, predict_lifetime_transformer, blocks_set_count, blocks_set_blocks,
    blocks_log]
  split_ifs with h
  · rw [h]
  · rfl

theorem malloc_entry (hasher : String → Nat) (t : ThreadId) (size : Nat)
    (stack_trace : String) (p : Addr) (w : World) (u : ThreadId) (q : Addr) :
    (llama2_malloc hasher t size stack_trace p w).2.entry u q
      = if u = t ∧ q = p then some (int_wrap (w.count t p + 1)) else w.entry u q := by
  simp [llama2_malloc, predict_lifetime_transformer]

theorem malloc_calls (hasher : String → Nat) (t : ThreadId) (size : Nat)
    (stack_trace : String) (p : Addr) (w : World) :
    (llama2_malloc hasher t size stack_trace p w).2.provider_calls
      = w.provider_calls ++ [ProviderCall.malloc size p] := by
  simp [llama2_malloc, predict_lifetime_transformer]

theorem free_blocks (t : ThreadId) (p : Addr) (c : Int) (w : World) (c' : Int) :
    (llama2_free t p c w).blocks c'
      = if int_wrap (w.count t p - 1) ≤ 0 ∧ c' = c
        then (w.blocks c).filter (fun q => decide (q ≠ p)) else w.blocks c' := by
  unfold llama2_free
  by_cases h : int_wrap (w.count t p - 1) ≤ 0 <;> by_cases h' : c' = c <;> simp [h, h']

theorem free_entry (t : ThreadId) (p : Addr) (c : Int) (w : World) (u : ThreadId)
    (q : Addr) :
    (llama2_free t p c w).entry u q
      = if u = t ∧ q = p then some (int_wrap (w.count t p - 1)) else w.entry u q := by
  unfold llama2_free
  by_cases h : int_wrap (w.count t p - 1) ≤ 0 <;> simp [h]

theorem free_calls (t : ThreadId) (p : Addr) (c : Int) (w : World) :
    (llama2_free t p c w).provider_calls
      = if int_wrap (w.count t p - 1) ≤ 0 then w.provider_calls ++ [ProviderCall.free p]
        else w.provider_calls := by
  unfold llama2_free
  by_cases h : int_wrap (w.count t p - 1) ≤ 0 <;> simp [h]

theorem free_of_reclaim (t : ThreadId) (p : Addr) (c : Int) (w : World)
    (h : int_wrap (w.count t p - 1) ≤ 0) :
    llama2_free t p c w
      = (((w.set_count t p (int_wrap (w.count t p - 1))).set_blocks c
          ((w.blocks c).filter fun q => decide (q ≠ p))).log (ProviderCall.free p)) := by
  unfold llama2_free
  simp [h]

theorem free_of_keep (t : ThreadId) (p : Addr) (c : Int) (w : World)
    (h : ¬ int_wrap (w.count t p - 1) ≤ 0) :
    llama2_free t p c w = w.set_count t p (int_wrap (w.count t p - 1)) := by
  unfold llama2_free
  simp [h]

theorem sync_blocks (t : ThreadId) (w : World) (c : Int) :
    (synchronize_reference_counts t w).blocks c = w.blocks c := rfl

theorem sync_calls (t : ThreadId) (w : World) :
    (synchronize_reference_counts t w).provider_calls = w.provider_calls := rfl

theorem sync_entry (t : ThreadId) (w : World) (u : ThreadId) (p : Addr) :
    (synchronize_reference_counts t w).entry u p
      = if u = t then
          (match w.entry t p with
            | some n => if n ≤ 0 then none else some n
            | none => none)
        else w.entry u p := by
  unfold synchronize_reference_counts World.entry UMap.erase_if
  by_cases h : u = t
  · subst h
    simp only [if_true]
    cases hp : w.thread_local_reference_count u p <;> simp
  · simp [h]

end Benchmark

namespace Llama2

theorem malloc_entry_rand (rand_seq : Nat → Int) (t : ThreadId) (size : Nat)
    (stack_trace : String) (p : Addr) (w : World) (u : ThreadId) (q : Addr) :
    (llama2_malloc rand_seq t size stack_trace p w).2.entry u q
      = if u = t ∧ q = p then some (int_wrap (w.count t p + 1)) else w.entry u q := by
  simp only [llama2_malloc, predict_lifetime_transformer, entry_set_count, entry_set_blocks,
    entry_log, count_set_blocks, count_log]
  rfl

theorem free_entry_plain (t : ThreadId) (p : Addr) (c : Int) (w : World) (u : ThreadId)
    (q : Addr) :
    (llama2_free t p c w).entry u q
      = if u = t ∧ q = p then some (int_wrap (w.count t p - 1)) else w.entry u q := by
  unfold llama2_free
  by_cases h : int_wrap (w.count t p - 1) ≤ 0 <;> simp [h]

theorem free_blocks_plain (t : ThreadId) (p : Addr) (c : Int) (w : World) (c' : Int) :
    (llama2_free t p c w).blocks c'
      = if int_wrap (w.count t p - 1) ≤ 0 ∧ c' = c
        then (w.blocks c).filter (fun q => decide (q ≠ p)) else w.blocks c' := by
  unfold llama2_free
  by_cases h : int_wrap (w.count t p - 1) ≤ 0 <;> by_cases h' : c' = c <;> simp [h, h']

theorem free_calls_plain (t : ThreadId) (p : Addr) (c : Int) (w : World) :
    (llama2_free t p c w).provider_calls
      = if int_wrap (w.count t p - 1) ≤ 0 then w.provider_calls ++ [ProviderCall.free p]
        else w.provider_calls := by
  unfold llama2_free
  by_cases h : int_wrap (w.count t p - 1) ≤ 0 <;> simp [h]

end Llama2

/-! ## Sequences of calls (C1, C2) -/

theorem handed_out_snoc_malloc (calls : List ProviderCall) (size : Nat) (p q : Addr) :
    handed_out (calls ++ [ProviderCall.malloc size p]) q
      = if p = q then true else handed_out calls q := by
  simp [handed_out, List.foldl_append]

theorem handed_out_snoc_free (calls : List ProviderCall) (p q : Addr) :
    handed_out (calls ++ [ProviderCall.free p]) q
      = if p = q then false else handed_out calls q := by
  simp [handed_out, List.foldl_append]

namespace Benchmark

theorem malloc_held (hasher : String → Nat) (t : ThreadId) (size : Nat)
    (stack_trace : String) (p : Addr) (w : World) (q : Addr) :
    (llama2_malloc hasher t size stack_trace p w).2.held q
      = if p = q then true else w.held q := by
  unfold World.held
  rw [malloc_calls, handed_out_snoc_malloc]

theorem free_held (t : ThreadId) (p : Addr) (c : Int) (w : World) (q : Addr) :
    (llama2_free t p c w).held q
      = if int_wrap (w.count t p - 1) ≤ 0 ∧ p = q then false else w.held q := by
  unfold World.held
  rw [free_calls]
  by_cases h : int_wrap (w.count t p - 1) ≤ 0
  · rw [if_pos h, handed_out_snoc_free]
    by_cases h' : p = q
    · subst h'
      simp [h]
    · simp [h']
  · simp [h]

theorem sync_held (t : ThreadId) (w : World) (q : Addr) :
    (synchronize_reference_counts t w).held q = w.held q := rfl

theorem malloc_count (hasher : String → Nat) (t : ThreadId) (size : Nat)
    (stack_trace : String) (p : Addr) (w : World) (u : ThreadId) (q : Addr) :
    (llama2_malloc hasher t size stack_trace p w).2.count u q
      = if u = t ∧ q = p then int_wrap (w.count t p + 1) else w.count u q := by
  by_cases h : u = t ∧ q = p
  · rw [count_eq_entry, malloc_entry, if_pos h, if_pos h]
    rfl
  · rw [count_eq_entry, malloc_entry, if_neg h, if_neg h]
    rfl

theorem free_count (t : ThreadId) (p : Addr) (c : Int) (w : World) (u : ThreadId)
    (q : Addr) :
    (llama2_free t p c w).count u q
      = if u = t ∧ q = p then int_wrap (w.count t p - 1) else w.count u q := by
  by_cases h : u = t ∧ q = p
  · rw [count_eq_entry, free_entry, if_pos h, if_pos h]
    rfl
  · rw [count_eq_entry, free_entry, if_neg h, if_neg h]
    rfl

theorem sync_count (t : ThreadId) (w : World) (u : ThreadId) (p : Addr) :
    (synchronize_reference_counts t w).count u p
      = if u = t ∧ w.count t p ≤ 0 then 0 else w.count u p := by
  rw [count_eq_entry, sync_entry, count_eq_entry, count_eq_entry]
  by_cases hu : u = t
  · subst hu
    cases hp : w.entry u p with
    | none => simp
    | some n => by_cases hn : n ≤ 0 <;> simp [hn]
  · simp [hu]

theorem mem_malloc_blocks (hasher : String → Nat) (t : ThreadId) (size : Nat)
    (stack_trace : String) (p : Addr) (w : World) (c : Int) (q : Addr) :
    q ∈ (llama2_malloc hasher t size stack_trace p w).2.blocks c
      ↔ q ∈ w.blocks c ∨ (q = p ∧ c = ((hasher stack_trace % 3 : Nat) : Int)) := by
  rw [malloc_blocks]
  by_cases h : c = ((hasher stack_trace % 3 : Nat) : Int)
  · rw [if_pos h]
    simp [h]
  · rw [if_neg h]
    constructor
    · intro hq
      exact Or.inl hq
    · rintro (hq | ⟨_, hc⟩)
      · exact hq
      · exact absurd hc h

theorem mem_free_blocks (t : ThreadId) (p : Addr) (c : Int) (w : World) (c' : Int)
    (q : Addr) :
    q ∈ (llama2_free t p c w).blocks c'
      ↔ q ∈ w.blocks c' ∧ ¬ (int_wrap (w.count t p - 1) ≤ 0 ∧ c' = c ∧ q = p) := by
  rw [free_blocks]
  by_cases h : int_wrap (w.count t p - 1) ≤ 0
  · by_cases h' : c' = c
    · subst h'
      simp [h]
    · simp [h, h']
  · simp [h]

theorem run_cons (hasher : String → Nat) (w : World) (call : Call) (rest : List Call) :
    run hasher w (call :: rest) = run hasher (step hasher w call) rest := rfl

theorem regions_consistent_initial : regions_consistent World.initial := by
  constructor
  · intro p c h
    exact absurd h (List.not_mem_nil p)
  · intro p c1 c2 h
    exact absurd h (List.not_mem_nil p)

theorem regions_consistent_step (hasher : String → Nat) (w : World) (call : Call)
    (hw : regions_consistent w) (hadm : admissible w call = true) :
    regions_consistent (step hasher w call) := by
  obtain ⟨ha, hb⟩ := hw
  cases call with
  | malloc t size stack_trace p =>
    have hp : w.held p = false := by simpa [admissible] using hadm
    have hnot : ∀ c, p ∉ w.blocks c := by
      intro c hc
      rw [ha p c hc] at hp
      exact Bool.noConfusion hp
    constructor
    · intro q c hq
      show (llama2_malloc hasher t size stack_trace p w).2.held q = true
      rw [malloc_held]
      have hq' : q ∈ (llama2_malloc hasher t size stack_trace p w).2.blocks c := hq
      rw [mem_malloc_blocks] at hq'
      rcases hq' with h | ⟨h, _⟩
      · by_cases e : p = q
        · rw [if_pos e]
        · rw [if_neg e]
          exact ha q c h
      · rw [if_pos h.symm]
    · intro q c1 c2 h1 h2
      have h1' : q ∈ (llama2_malloc hasher t size stack_trace p w).2.blocks c1 := h1
      have h2' : q ∈ (llama2_malloc hasher t size stack_trace p w).2.blocks c2 := h2
      rw [mem_malloc_blocks] at h1' h2'
      rcases h1' with h1' | ⟨e1, k1⟩
      · rcases h2' with h2' | ⟨e2, _⟩
        · exact hb q c1 c2 h1' h2'
        · subst e2
          exact absurd h1' (hnot c1)
      · rcases h2' with h2' | ⟨_, k2⟩
        · subst e1
          exact absurd h2' (hnot c2)
        · rw [k1, k2]
  | free t p c =>
    have hp : p ∈ w.blocks c := by simpa [admissible] using hadm
    constructor
    · intro q c' hq
      show (llama2_free t p c w).held q = true
      have hq' : q ∈ (llama2_free t p c w).blocks c' := hq
      rw [mem_free_blocks] at hq'
      rw [free_held]
      by_cases e : int_wrap (w.count t p - 1) ≤ 0 ∧ p = q
      · obtain ⟨e1, e2⟩ := e
        subst e2
        exact absurd ⟨e1, hb p c' c hq'.1 hp, rfl⟩ hq'.2
      · rw [if_neg e]
        exact ha q c' hq'.1
    · intro q c1 c2 h1 h2
      have h1' : q ∈ (llama2_free t p c w).blocks c1 := h1
      have h2' : q ∈ (llama2_free t p c w).blocks c2 := h2
      rw [mem_free_blocks] at h1' h2'
      exact hb q c1 c2 h1'.1 h2'.1
  | synchronize t => exact ⟨ha, hb⟩

theorem regions_consistent_run (hasher : String → Nat) (calls : List Call) :
    ∀ w, regions_consistent w → well_used hasher w calls = true →
      regions_consistent (run hasher w calls) := by
  induction calls with
  | nil => intro w hw _; exact hw
  | cons call rest ih =>
    intro w hw hused
    have h2 : admissible w call = true ∧ well_used hasher (step hasher w call) rest = true := by
      simpa [well_used] using hused
    rw [run_cons]
    exact ih _ (regions_consistent_step hasher w call hw h2.1) h2.2

theorem ledger_consistent_initial (t : ThreadId) :
    ledger_consistent t World.initial (fun _ => none) := by
  refine ⟨?_, ?_, ?_⟩
  · intro p h
    exact Bool.noConfusion h
  · intro p _
    exact ⟨rfl, fun c h => absurd h (List.not_mem_nil p)⟩
  · intro p c h
    exact absurd h (List.not_mem_nil p)

theorem ledger_consistent_step (hasher : String → Nat) (t : ThreadId) (w : World)
    (g : Addr → Option Int) (call : Call) (hw : ledger_consistent t w g)
    (hthread : call.thread = t) (hadm : admissible w call = true) :
    ledger_consistent t (step hasher w call) (record_class hasher w g call) := by
  obtain ⟨j1, j2, j3⟩ := hw
  have one_up : int_wrap (0 + 1) = 1 := by decide
  have one_down : int_wrap (1 - 1) = 0 := by decide
  cases call with
  | malloc t' size stack_trace p =>
    have ht : t' = t := hthread
    subst ht
    have hp : w.held p = false := by simpa [admissible] using hadm
    obtain ⟨hc0, hnot⟩ := j2 p hp
    refine ⟨?_, ?_, ?_⟩
    · intro q hq
      have hq' : (llama2_malloc hasher t' size stack_trace p w).2.held q = true := hq
      show (llama2_malloc hasher t' size stack_trace p w).2.count t' q = 1
        ∧ ∃ c, record_class hasher w g (Call.malloc t' size stack_trace p) q = some c
          ∧ q ∈ (llama2_malloc hasher t' size stack_trace p w).2.blocks c
      rw [malloc_held] at hq'
      rw [malloc_count]
      by_cases e : q = p
      · subst e
        refine ⟨?_, ((hasher stack_trace % 3 : Nat) : Int), ?_, ?_⟩
        · rw [if_pos ⟨rfl, rfl⟩, hc0, one_up]
        · simp [record_class, predict_lifetime_transformer]
        · rw [mem_malloc_blocks]
          exact Or.inr ⟨rfl, rfl⟩
      · rw [if_neg (fun h => e h.symm)] at hq'
        obtain ⟨k1, c, k2, k3⟩ := j1 q hq'
        refine ⟨?_, c, ?_, ?_⟩
        · rw [if_neg (fun h => e h.2), k1]
        · simp [record_class, e, k2]
        · rw [mem_malloc_blocks]
          exact Or.inl k3
    · intro q hq
      have hq' : (llama2_malloc hasher t' size stack_trace p w).2.held q = false := hq
      show (llama2_malloc hasher t' size stack_trace p w).2.count t' q = 0
        ∧ ∀ c, q ∉ (llama2_malloc hasher t' size stack_trace p w).2.blocks c
      rw [malloc_held] at hq'
      have e : ¬ p = q := by
        intro h
        rw [if_pos h] at hq'
        exact Bool.noConfusion hq'
      rw [if_neg e] at hq'
      obtain ⟨k1, k2⟩ := j2 q hq'
      refine ⟨?_, ?_⟩
      · rw [malloc_count, if_neg (fun h => e h.2.symm), k1]
      · intro c hc
        rw [mem_malloc_blocks] at hc
        rcases hc with hc | ⟨hc, _⟩
        · exact k2 c hc
        · exact e hc.symm
    · intro q c hq
      have hq' : q ∈ (llama2_malloc hasher t' size stack_trace p w).2.blocks c := hq
      rw [mem_malloc_blocks] at hq'
      rcases hq' with h | ⟨h1, h2⟩
      · have e : ¬ q = p := by
          intro h'
          subst h'
          exact hnot c h
        simp [record_class, e, j3 q c h]
      · subst h1
        simp [record_class, predict_lifetime_transformer, h2]
  | free t' p c =>
    have ht : t' = t := hthread
    subst ht
    have hp : p ∈ w.blocks c := by simpa [admissible] using hadm
    have hheld : w.held p = true := by
      cases hh : w.held p with
      | true => rfl
      | false => exact absurd hp ((j2 p hh).2 c)
    obtain ⟨hc1, _⟩ := j1 p hheld
    have hgp : g p = some c := j3 p c hp
    have hR : int_wrap (w.count t' p - 1) ≤ 0 := by
      rw [hc1, one_down]
    refine ⟨?_, ?_, ?_⟩
    · intro q hq
      have hq' : (llama2_free t' p c w).held q = true := hq
      show (llama2_free t' p c w).count t' q = 1
        ∧ ∃ c', g q = some c' ∧ q ∈ (llama2_free t' p c w).blocks c'
      rw [free_held] at hq'
      have e : ¬ p = q := by
        intro h
        rw [if_pos ⟨hR, h⟩] at hq'
        exact Bool.noConfusion hq'
      rw [if_neg (fun h => e h.2)] at hq'
      obtain ⟨k1, c', k2, k3⟩ := j1 q hq'
      refine ⟨?_, c', k2, ?_⟩
      · rw [free_count, if_neg (fun h => e h.2.symm), k1]
      · rw [mem_free_blocks]
        exact ⟨k3, fun h => e h.2.2.symm⟩
    · intro q hq
      have hq' : (llama2_free t' p c w).held q = false := hq
      show (llama2_free t' p c w).count t' q = 0
        ∧ ∀ c', q ∉ (llama2_free t' p c w).blocks c'
      by_cases e : q = p
      · subst e
        refine ⟨?_, ?_⟩
        · rw [free_count, if_pos ⟨rfl, rfl⟩, hc1, one_down]
        · intro c' hc'
          rw [mem_free_blocks] at hc'
          have hcc : c' = c := by
            have := j3 q c' hc'.1
            rw [hgp] at this
            exact (Option.some.inj this).symm
          exact hc'.2 ⟨hR, hcc, rfl⟩
      · rw [free_held, if_neg (fun h => e h.2.symm)] at hq'
        obtain ⟨k1, k2⟩ := j2 q hq'
        refine ⟨?_, ?_⟩
        · rw [free_count, if_neg (fun h => e h.2), k1]
        · intro c' hc'
          rw [mem_free_blocks] at hc'
          exact k2 c' hc'.1
    · intro q c' hq
      have hq' : q ∈ (llama2_free t' p c w).blocks c' := hq
      rw [mem_free_blocks] at hq'
      exact j3 q c' hq'.1
  | synchronize t' =>
    have ht : t' = t := hthread
    subst ht
    refine ⟨?_, ?_, ?_⟩
    · intro q hq
      obtain ⟨k1, k2⟩ := j1 q hq
      refine ⟨?_, k2⟩
      show (synchronize_reference_counts t' w).count t' q = 1
      rw [sync_count, k1]
      simp
    · intro q hq
      obtain ⟨k1, k2⟩ := j2 q hq
      refine ⟨?_, k2⟩
      show (synchronize_reference_counts t' w).count t' q = 0
      rw [sync_count, k1]
      simp
    · exact j3

theorem ledger_consistent_run (hasher : String → Nat) (t : ThreadId) (calls : List Call) :
    ∀ w g, ledger_consistent t w g → (∀ call ∈ calls, call.thread = t) →
      well_used hasher w calls = true →
      ledger_consistent t (run hasher w calls) (allocation_class hasher w g calls) := by
  induction calls with
  | nil => intro w g hw _ _; exact hw
  | cons call rest ih =>
    intro w g hw hthread hused
    have h2 : admissible w call = true ∧ well_used hasher (step hasher w call) rest = true := by
      simpa [well_used] using hused
    rw [run_cons]
    show ledger_consistent t (run hasher (step hasher w call) rest)
      (allocation_class hasher (step hasher w call) (record_class hasher w g call) rest)
    exact ih _ _
      (ledger_consistent_step hasher t w g call hw (hthread call (List.mem_cons_self _ _)) h2.1)
      (fun call' h' => hthread call' (List.mem_cons_of_mem _ h')) h2.2

end Benchmark

/-- C1, the claim fails: one thread allocates address 4096 in class 0, releases
it twice with class 0 (the second release leaves the count at -1) and is then
given 4096 again by an allocation in class 0. Afterwards the block is contained
in the `allocated_blocks` of class 0 although its ledger count is 0, so the
Region is not the set of allocated blocks with a count above 0. -/
theorem C1_registered_block_with_count_zero :
    (∀ call ∈ [Benchmark.Call.malloc 0 8 "" 4096, Benchmark.Call.free 0 4096 0,
        Benchmark.Call.free 0 4096 0, Benchmark.Call.malloc 0 8 "" 4096], call.thread = 0)
    ∧ Benchmark.allocation_class String.length World.initial (fun _ => none)
        [Benchmark.Call.malloc 0 8 "" 4096, Benchmark.Call.free 0 4096 0,
          Benchmark.Call.free 0 4096 0, Benchmark.Call.malloc 0 8 "" 4096] 4096 = some 0
    ∧ 4096 ∈ (Benchmark.run String.length World.initial
        [Benchmark.Call.malloc 0 8 "" 4096, Benchmark.Call.free 0 4096 0,
          Benchmark.Call.free 0 4096 0, Benchmark.Call.malloc 0 8 "" 4096]).blocks 0
    ∧ (Benchmark.run String.length World.initial
        [Benchmark.Call.malloc 0 8 "" 4096, Benchmark.Call.free 0 4096 0,
          Benchmark.Call.free 0 4096 0, Benchmark.Call.malloc 0 8 "" 4096]).count 0 4096 = 0
    ∧ ¬ (4096 ∈ (Benchmark.run String.length World.initial
          [Benchmark.Call.malloc 0 8 "" 4096, Benchmark.Call.free 0 4096 0,
            Benchmark.Call.free 0 4096 0, Benchmark.Call.malloc 0 8 "" 4096]).blocks 0
        ↔ (Benchmark.allocation_class String.length World.initial (fun _ => none)
            [Benchmark.Call.malloc 0 8 "" 4096, Benchmark.Call.free 0 4096 0,
              Benchmark.Call.free 0 4096 0, Benchmark.Call.malloc 0 8 "" 4096] 4096 = some 0
          ∧ 0 < (Benchmark.run String.length World.initial
            [Benchmark.Call.malloc 0 8 "" 4096, Benchmark.Call.free 0 4096 0,
              Benchmark.Call.free 0 4096 0, Benchmark.Call.malloc 0 8 "" 4096]).count 0 4096)) := by
  decide

/-- C1, as amended: for every sequence of `llama2_malloc`, `llama2_free` and
`synchronize_reference_counts` calls of one thread, started in the initial
state, in which the provider never returns an address it has handed out and not
been given back and every release names a block contained in the Region of the
class it passes (so no block is released again after its reclamation), the
`allocated_blocks` of each class contains exactly the addresses whose most
recent allocation was in that class and whose ledger count is above 0; that
count is then 1. -/
theorem C1_regions_hold_the_live_blocks (hasher : String → Nat) (t : ThreadId)
    (calls : List Benchmark.Call) (hthread : ∀ call ∈ calls, call.thread = t)
    (hused : Benchmark.well_used hasher World.initial calls = true) (c : Int) (p : Addr) :
    (p ∈ (Benchmark.run hasher World.initial calls).blocks c
      ↔ (Benchmark.allocation_class hasher World.initial (fun _ => none) calls p = some c
          ∧ 0 < (Benchmark.run hasher World.initial calls).count t p))
    ∧ (p ∈ (Benchmark.run hasher World.initial calls).blocks c →
        (Benchmark.run hasher World.initial calls).count t p = 1) := by
  obtain ⟨j1, j2, j3⟩ := Benchmark.ledger_consistent_run hasher t calls World.initial
    (fun _ => none) (Benchmark.ledger_consistent_initial t) hthread hused
  have live : ∀ c', p ∈ (Benchmark.run hasher World.initial calls).blocks c' →
      (Benchmark.run hasher World.initial calls).held p = true := by
    intro c' hp
    cases hh : (Benchmark.run hasher World.initial calls).held p with
    | true => rfl
    | false => exact absurd hp ((j2 p hh).2 c')
  refine ⟨⟨?_, ?_⟩, ?_⟩
  · intro hp
    refine ⟨j3 p c hp, ?_⟩
    rw [(j1 p (live c hp)).1]
    exact Int.one_pos
  · rintro ⟨hg, hpos⟩
    have hheld : (Benchmark.run hasher World.initial calls).held p = true := by
      cases hh : (Benchmark.run hasher World.initial calls).held p with
      | true => rfl
      | false =>
        rw [(j2 p hh).1] at hpos
        exact absurd hpos (lt_irrefl 0)
    obtain ⟨_, c', k2, k3⟩ := j1 p hheld
    rw [hg] at k2
    rw [Option.some.inj k2]
    exact k3
  · intro hp
    exact (j1 p (live c hp)).1

/-- C1 (amended) on a sequence of thread 0 with two allocations, a release, a
synchronisation pass and a reuse of the released address in another class. -/
theorem C1_regions_hold_the_live_blocks_witness :
    (∀ call ∈ [Benchmark.Call.malloc 0 128 "ctxA" 4096, Benchmark.Call.malloc 0 64 "ctxB" 8192,
        Benchmark.Call.free 0 4096 1, Benchmark.Call.synchronize 0,
        Benchmark.Call.malloc 0 8 "" 4096], call.thread = 0)
    ∧ Benchmark.well_used String.length World.initial
        [Benchmark.Call.malloc 0 128 "ctxA" 4096, Benchmark.Call.malloc 0 64 "ctxB" 8192,
          Benchmark.Call.free 0 4096 1, Benchmark.Call.synchronize 0,
          Benchmark.Call.malloc 0 8 "" 4096] = true
    ∧ (4096 ∈ (Benchmark.run String.length World.initial
          [Benchmark.Call.malloc 0 128 "ctxA" 4096, Benchmark.Call.malloc 0 64 "ctxB" 8192,
            Benchmark.Call.free 0 4096 1, Benchmark.Call.synchronize 0,
            Benchmark.Call.malloc 0 8 "" 4096]).blocks 0
        → (Benchmark.run String.length World.initial
          [Benchmark.Call.malloc 0 128 "ctxA" 4096, Benchmark.Call.malloc 0 64 "ctxB" 8192,
            Benchmark.Call.free 0 4096 1, Benchmark.Call.synchronize 0,
            Benchmark.Call.malloc 0 8 "" 4096]).count 0 4096 = 1) :=
  ⟨by decide, by decide,
   (C1_regions_hold_the_live_blocks String.length 0
      [Benchmark.Call.malloc 0 128 "ctxA" 4096, Benchmark.Call.malloc 0 64 "ctxB" 8192,
        Benchmark.Call.free 0 4096 1, Benchmark.Call.synchronize 0,
        Benchmark.Call.malloc 0 8 "" 4096]
      (by decide) (by decide) 0 4096).2⟩

/-- C2, the claim fails: address 4096 is allocated in class 0 and released with
class 1; the release drives its count to 0 and hands it to the provider, yet the
block stays in the `allocated_blocks` of class 0; when the provider then returns
4096 to an allocation in class 1, the address is contained in the Regions of
class 0 and of class 1 at the same time. -/
theorem C2_block_in_two_regions :
    (Benchmark.run String.length World.initial
        [Benchmark.Call.malloc 0 8 "" 4096, Benchmark.Call.free 0 4096 1]).count 0 4096 = 0
    ∧ (Benchmark.run String.length World.initial
        [Benchmark.Call.malloc 0 8 "" 4096, Benchmark.Call.free 0 4096 1]).provider_calls
      = [ProviderCall.malloc 8 4096, ProviderCall.free 4096]
    ∧ 4096 ∈ (Benchmark.run String.length World.initial
        [Benchmark.Call.malloc 0 8 "" 4096, Benchmark.Call.free 0 4096 1]).blocks 0
    ∧ 4096 ∈ (Benchmark.run String.length World.initial
        [Benchmark.Call.malloc 0 8 "" 4096, Benchmark.Call.free 0 4096 1,
          Benchmark.Call.malloc 0 8 "a" 4096]).blocks 0
    ∧ 4096 ∈ (Benchmark.run String.length World.initial
        [Benchmark.Call.malloc 0 8 "" 4096, Benchmark.Call.free 0 4096 1,
          Benchmark.Call.malloc 0 8 "a" 4096]).blocks 1 := by
  decide

/-- C2, as amended: in every state reached from the initial state by
`llama2_malloc`, `llama2_free` and `synchronize_reference_counts` calls of any
threads in which the provider never returns an address it has handed out and not
been given back and every release names a block contained in the Region of the
class it passes, no address is contained in the `allocated_blocks` of two
classes, every address contained in a Region is still handed out by the
provider, and a release of a registered block with its class that lowers the
count to a value `<= 0` leaves the block in no Region. -/
theorem C2_regions_are_disjoint (hasher : String → Nat) (calls : List Benchmark.Call)
    (hused : Benchmark.well_used hasher World.initial calls = true) :
    (∀ p c1 c2, p ∈ (Benchmark.run hasher World.initial calls).blocks c1 →
        p ∈ (Benchmark.run hasher World.initial calls).blocks c2 → c1 = c2)
    ∧ (∀ p c, p ∈ (Benchmark.run hasher World.initial calls).blocks c →
        (Benchmark.run hasher World.initial calls).held p = true)
    ∧ (∀ t p c, p ∈ (Benchmark.run hasher World.initial calls).blocks c →
        (Benchmark.llama2_free t p c (Benchmark.run hasher World.initial calls)).count t p ≤ 0 →
        ∀ c', p ∉ (Benchmark.llama2_free t p c
                    (Benchmark.run hasher World.initial calls)).blocks c') := by
  obtain ⟨ha, hb⟩ := Benchmark.regions_consistent_run hasher calls World.initial
    Benchmark.regions_consistent_initial hused
  refine ⟨hb, ha, ?_⟩
  intro t p c hp hcount c' hc'
  rw [Benchmark.free_count, if_pos ⟨rfl, rfl⟩] at hcount
  rw [Benchmark.mem_free_blocks] at hc'
  exact hc'.2 ⟨hcount, hb p c' c hc'.1 hp, rfl⟩

/-- C2 (amended) on a sequence in which thread 1 releases a block of thread 0
and is given its address again. -/
theorem C2_regions_are_disjoint_witness :
    Benchmark.well_used String.length World.initial
        [Benchmark.Call.malloc 0 8 "" 4096, Benchmark.Call.free 1 4096 0,
          Benchmark.Call.malloc 1 8 "a" 4096, Benchmark.Call.synchronize 1] = true
    ∧ (∀ p c1 c2,
        p ∈ (Benchmark.run String.length World.initial
          [Benchmark.Call.malloc 0 8 "" 4096, Benchmark.Call.free 1 4096 0,
            Benchmark.Call.malloc 1 8 "a" 4096, Benchmark.Call.synchronize 1]).blocks c1 →
        p ∈ (Benchmark.run String.length World.initial
          [Benchmark.Call.malloc 0 8 "" 4096, Benchmark.Call.free 1 4096 0,
            Benchmark.Call.malloc 1 8 "a" 4096, Benchmark.Call.synchronize 1]).blocks c2 →
        c1 = c2) :=
  ⟨by decide,
   (C2_regions_are_disjoint String.length
      [Benchmark.Call.malloc 0 8 "" 4096, Benchmark.Call.free 1 4096 0,
        Benchmark.Call.malloc 1 8 "a" 4096, Benchmark.Call.synchronize 1] (by decide)).1⟩

/-! ## Releasing a block again after its reclamation (C3) -/

/-- C3, the claim fails: after one allocation of address 4096 and its release,
which reclaims it, a second `llama2_free` of the same block hands 4096 to the
provider's `free` a second time: two releases for one allocation. -/
theorem C3_second_release_reaches_the_provider :
    (Benchmark.run String.length World.initial
        [Benchmark.Call.malloc 0 8 "" 4096, Benchmark.Call.free 0 4096 0]).provider_calls
      = [ProviderCall.malloc 8 4096, ProviderCall.free 4096]
    ∧ (Benchmark.llama2_free 0 4096 0
        (Benchmark.run String.length World.initial
          [Benchmark.Call.malloc 0 8 "" 4096, Benchmark.Call.free 0 4096 0])).provider_calls
      = [ProviderCall.malloc 8 4096, ProviderCall.free 4096, ProviderCall.free 4096]
    ∧ (Benchmark.llama2_free 0 4096 0
        (Benchmark.run String.length World.initial
          [Benchmark.Call.malloc 0 8 "" 4096, Benchmark.Call.free 0 4096 0])).acquisitions 4096
      = 1
    ∧ (Benchmark.llama2_free 0 4096 0
        (Benchmark.run String.length World.initial
          [Benchmark.Call.malloc 0 8 "" 4096, Benchmark.Call.free 0 4096 0])).releases 4096
      = 2 := by
  decide

/-- C3, as amended: `llama2_free` (of `llama2_benchmark.cpp` and of `llama2.cpp`)
returns nothing to its caller; called on a block whose count on the calling
thread is already `<= 0`, as a reclaiming release leaves it (and above the
least `int`), it lowers the count by one more and hands the address to the
provider's `free` once more, so every such call adds one provider release (and
leaves the count `<= 0` for the next one). -/
theorem C3_release_after_reclaim_releases_again (t : ThreadId) (p : Addr) (c : Int)
    (w : World) (hdead : w.count t p ≤ 0) (hmin : -2147483648 < w.count t p) :
    (Benchmark.llama2_free t p c w).provider_calls = w.provider_calls ++ [ProviderCall.free p]
    ∧ (Benchmark.llama2_free t p c w).releases p = w.releases p + 1
    ∧ (Benchmark.llama2_free t p c w).entry t p = some (w.count t p - 1)
    ∧ (Benchmark.llama2_free t p c w).count t p ≤ 0
    ∧ (Llama2.llama2_free t p c w).provider_calls = w.provider_calls ++ [ProviderCall.free p]
    ∧ (Llama2.llama2_free t p c w).releases p = w.releases p + 1
    ∧ (Llama2.llama2_free t p c w).entry t p = some (w.count t p - 1)
    ∧ (Llama2.llama2_free t p c w).count t p ≤ 0 := by
  have hw : int_wrap (w.count t p - 1) = w.count t p - 1 :=
    int_wrap_of_range _ (by omega) (by omega)
  have hle : int_wrap (w.count t p - 1) ≤ 0 := by rw [hw]; omega
  have b1 : (Benchmark.llama2_free t p c w).provider_calls
      = w.provider_calls ++ [ProviderCall.free p] := by
    rw [Benchmark.free_calls, if_pos hle]
  have b2 : (Benchmark.llama2_free t p c w).entry t p = some (w.count t p - 1) := by
    rw [Benchmark.free_entry, if_pos ⟨rfl, rfl⟩, hw]
  have l1 : (Llama2.llama2_free t p c w).provider_calls
      = w.provider_calls ++ [ProviderCall.free p] := by
    rw [Llama2.free_calls_plain, if_pos hle]
  have l2 : (Llama2.llama2_free t p c w).entry t p = some (w.count t p - 1) := by
    rw [Llama2.free_entry_plain, if_pos ⟨rfl, rfl⟩, hw]
  refine ⟨b1, ?_, b2, ?_, l1, ?_, l2, ?_⟩
  · simp [World.releases, b1, List.count_append]
  · rw [count_eq_entry, b2]
    show w.count t p - 1 ≤ 0
    omega
  · simp [World.releases, l1, List.count_append]
  · rw [count_eq_entry, l2]
    show w.count t p - 1 ≤ 0
    omega

/-- C3 (amended) at the state an allocation of address 4096 and its release
leave behind. -/
theorem C3_release_after_reclaim_releases_again_witness :
    (Benchmark.run String.length World.initial
        [Benchmark.Call.malloc 0 8 "" 4096, Benchmark.Call.free 0 4096 0]).count 0 4096 ≤ 0
    ∧ (Benchmark.llama2_free 0 4096 0
        (Benchmark.run String.length World.initial
          [Benchmark.Call.malloc 0 8 "" 4096, Benchmark.Call.free 0 4096 0])).releases 4096
      = (Benchmark.run String.length World.initial
          [Benchmark.Call.malloc 0 8 "" 4096, Benchmark.Call.free 0 4096 0]).releases 4096 + 1 :=
  ⟨by decide,
   (C3_release_after_reclaim_releases_again 0 4096 0
      (Benchmark.run String.length World.initial
        [Benchmark.Call.malloc 0 8 "" 4096, Benchmark.Call.free 0 4096 0])
      (by decide) (by decide)).2.1⟩

/-! ## Allocation when the provider fails (C4) -/

/-- C4, the claim fails: from the initial state, with `malloc` returning the null
pointer, `llama2_malloc` hands the null pointer back as its result, leaves it in
the `allocated_blocks` of the class of the context and creates a ledger entry at
1 for it, where the claim wants the Region and the ledger untouched. -/
theorem C4_null_block_is_registered :
    (Benchmark.llama2_malloc String.length 0 128 "ctxA" 0 World.initial).1 = 0
    ∧ World.initial.blocks 1 = []
    ∧ (Benchmark.llama2_malloc String.length 0 128 "ctxA" 0 World.initial).2.blocks 1 = [0]
    ∧ World.initial.entry 0 0 = none
    ∧ (Benchmark.llama2_malloc String.length 0 128 "ctxA" 0 World.initial).2.entry 0 0
        = some 1 := by
  decide

/-- C4, as amended: when `malloc` returns the null pointer, `llama2_malloc`
reports nothing: it returns the null pointer after appending it to the
`allocated_blocks` of the class of the context and raising the calling thread's
ledger count of the null address by one; the other Regions and all other ledger
entries stay as they were. -/
theorem C4_null_result_is_treated_as_a_block (hasher : String → Nat) (t : ThreadId)
    (size : Nat) (stack_trace : String) (w : World) :
    (Benchmark.llama2_malloc hasher t size stack_trace 0 w).1 = 0
    ∧ (Benchmark.llama2_malloc hasher t size stack_trace 0 w).2.blocks
          (Benchmark.predict_lifetime_transformer hasher stack_trace w).1
        = w.blocks (Benchmark.predict_lifetime_transformer hasher stack_trace w).1 ++ [0]
    ∧ (∀ c, c ≠ (Benchmark.predict_lifetime_transformer hasher stack_trace w).1 →
        (Benchmark.llama2_malloc hasher t size stack_trace 0 w).2.blocks c = w.blocks c)
    ∧ (Benchmark.llama2_malloc hasher t size stack_trace 0 w).2.entry t 0
        = some (int_wrap (w.count t 0 + 1))
    ∧ (∀ u q, ¬ (u = t ∧ q = 0) →
        (Benchmark.llama2_malloc hasher t size stack_trace 0 w).2.entry u q = w.entry u q) := by
  refine ⟨rfl, ?_, ?_, ?_, ?_⟩
  · rw [Benchmark.malloc_blocks, Benchmark.class_eq, if_pos rfl]
  · intro c hc
    rw [Benchmark.class_eq] at hc
    rw [Benchmark.malloc_blocks, if_neg hc]
  · rw [Benchmark.malloc_entry, if_pos ⟨rfl, rfl⟩]
  · intro u q h
    rw [Benchmark.malloc_entry, if_neg h]

/-! ## The synchronisation pass (C5) -/

/-- C5: `synchronize_reference_counts` leaves the region table as it was, keeps
every ledger entry whose count is positive with its count, and changes a ledger
entry only by removing one whose count is `<= 0`. -/
theorem C5_synchronize_only_removes_dead_entries (t : ThreadId) (w : World) :
    (Benchmark.synchronize_reference_counts t w).lifetime_memory_map = w.lifetime_memory_map
    ∧ (∀ c, (Benchmark.synchronize_reference_counts t w).blocks c = w.blocks c)
    ∧ (∀ u p n, w.entry u p = some n → 0 < n →
        (Benchmark.synchronize_reference_counts t w).entry u p = some n)
    ∧ (∀ u p, (Benchmark.synchronize_reference_counts t w).entry u p ≠ w.entry u p →
        (Benchmark.synchronize_reference_counts t w).entry u p = none
        ∧ ∃ n, w.entry u p = some n ∧ n ≤ 0) := by
  refine ⟨rfl, fun _ => rfl, ?_, ?_⟩
  · intro u p n hn hpos
    rw [Benchmark.sync_entry]
    by_cases hu : u = t
    · subst hu
      simp [hn, not_le.mpr hpos]
    · simp [hu, hn]
  · intro u p hne
    rw [Benchmark.sync_entry] at hne ⊢
    by_cases hu : u = t
    · subst hu
      simp only [if_true] at hne ⊢
      cases hp : w.entry u p with
      | none => simp [hp] at hne
      | some n =>
        by_cases hn : n ≤ 0
        · simp [hn]
        · simp [hp, hn] at hne
    · simp [hu] at hne

/-! ## The classifiers (C6, C7) -/

/-- C6: the hash-based `predict_lifetime_transformer` returns, for a given
context, the same class in any two states, in particular before and after any
sequence of allocator calls, and it leaves the state it is called in unchanged. -/
theorem C6_hash_classifier_is_pure (hasher : String → Nat) (stack_trace : String)
    (w w' : World) (calls : List Benchmark.Call) :
    (Benchmark.predict_lifetime_transformer hasher stack_trace w).1
        = (Benchmark.predict_lifetime_transformer hasher stack_trace w').1
    ∧ (Benchmark.predict_lifetime_transformer hasher stack_trace
          (Benchmark.run hasher
            (Benchmark.predict_lifetime_transformer hasher stack_trace w).2 calls)).1
        = (Benchmark.predict_lifetime_transformer hasher stack_trace w).1
    ∧ (Benchmark.predict_lifetime_transformer hasher stack_trace w).2 = w :=
  ⟨rfl, rfl, rfl⟩

/-- C7: every classifier variant returns 0, 1 or 2 for every context string,
the empty one included: the hash variant for every hash function, the two
`rand()` variants for every sequence of non-negative `rand()` results. -/
theorem C7_classifiers_return_a_valid_class (hasher : String → Nat) (rand_seq : Nat → Int)
    (hrand : ∀ n, 0 ≤ rand_seq n) (stack_trace : String) (w : World) :
    ((Benchmark.predict_lifetime_transformer hasher stack_trace w).1 = 0
      ∨ (Benchmark.predict_lifetime_transformer hasher stack_trace w).1 = 1
      ∨ (Benchmark.predict_lifetime_transformer hasher stack_trace w).1 = 2)
    ∧ ((Llama2.predict_lifetime_transformer rand_seq stack_trace w).1 = 0
      ∨ (Llama2.predict_lifetime_transformer rand_seq stack_trace w).1 = 1
      ∨ (Llama2.predict_lifetime_transformer rand_seq stack_trace w).1 = 2)
    ∧ ((Llama.predict_lifetime rand_seq stack_trace w).1 = 0
      ∨ (Llama.predict_lifetime rand_seq stack_trace w).1 = 1
      ∨ (Llama.predict_lifetime rand_seq stack_trace w).1 = 2) := by
  have hr := hrand w.rand_calls
  have key : Int.tmod (rand_seq w.rand_calls) 3 = 0 ∨ Int.tmod (rand_seq w.rand_calls) 3 = 1
      ∨ Int.tmod (rand_seq w.rand_calls) 3 = 2 := by
    rw [Int.tmod_eq_emod hr (by decide)]
    omega
  refine ⟨?_, key, key⟩
  show ((hasher stack_trace % 3 : Nat) : Int) = 0 ∨ ((hasher stack_trace % 3 : Nat) : Int) = 1
    ∨ ((hasher stack_trace % 3 : Nat) : Int) = 2
  omega

/-- C7 at the empty context, with the string length as hash and `rand()`
counting up from 0. -/
theorem C7_classifiers_return_a_valid_class_witness :
    (∀ n : Nat, (0 : Int) ≤ (n : Int))
    ∧ (((Benchmark.predict_lifetime_transformer String.length "" World.initial).1 = 0
        ∨ (Benchmark.predict_lifetime_transformer String.length "" World.initial).1 = 1
        ∨ (Benchmark.predict_lifetime_transformer String.length "" World.initial).1 = 2)
      ∧ ((Llama2.predict_lifetime_transformer (fun n => (n : Int)) "" World.initial).1 = 0
        ∨ (Llama2.predict_lifetime_transformer (fun n => (n : Int)) "" World.initial).1 = 1
        ∨ (Llama2.predict_lifetime_transformer (fun n => (n : Int)) "" World.initial).1 = 2)
      ∧ ((Llama.predict_lifetime (fun n => (n : Int)) "" World.initial).1 = 0
        ∨ (Llama.predict_lifetime (fun n => (n : Int)) "" World.initial).1 = 1
        ∨ (Llama.predict_lifetime (fun n => (n : Int)) "" World.initial).1 = 2)) :=
  ⟨fun n => Int.ofNat_nonneg n,
   C7_classifiers_return_a_valid_class String.length (fun n => (n : Int))
     (fun n => Int.ofNat_nonneg n) "" World.initial⟩

/-! ## Allocate then release, allocate twice (C8, C9) -/

/-- C8, the claim fails: thread 0 allocates address 4096 in class 0, thread 1
releases it, and the provider returns 4096 to thread 0 again for the context of
class 0. That `llama2_malloc` returns block 4096 with a count of 2 on thread 0,
and the `llama2_free` of thread 0 that follows at once, with class 0, leaves the
count at 1, not 0, and the block contained in the `allocated_blocks` of class
0. -/
theorem C8_release_leaves_reused_block_registered :
    (Benchmark.predict_lifetime_transformer String.length ""
        (Benchmark.run String.length World.initial
          [Benchmark.Call.malloc 0 8 "" 4096, Benchmark.Call.free 1 4096 0])).1 = 0
    ∧ (Benchmark.run String.length World.initial
          [Benchmark.Call.malloc 0 8 "" 4096, Benchmark.Call.free 1 4096 0]).provider_calls
      = [ProviderCall.malloc 8 4096, ProviderCall.free 4096]
    ∧ (Benchmark.llama2_malloc String.length 0 8 "" 4096
        (Benchmark.run String.length World.initial
          [Benchmark.Call.malloc 0 8 "" 4096, Benchmark.Call.free 1 4096 0])).1 = 4096
    ∧ (Benchmark.llama2_malloc String.length 0 8 "" 4096
        (Benchmark.run String.length World.initial
          [Benchmark.Call.malloc 0 8 "" 4096, Benchmark.Call.free 1 4096 0])).2.entry 0 4096
      = some 2
    ∧ (Benchmark.llama2_free 0 4096 0
        (Benchmark.llama2_malloc String.length 0 8 "" 4096
          (Benchmark.run String.length World.initial
            [Benchmark.Call.malloc 0 8 "" 4096, Benchmark.Call.free 1 4096 0])).2).entry 0 4096
      = some 1
    ∧ 4096 ∈ (Benchmark.llama2_free 0 4096 0
        (Benchmark.llama2_malloc String.length 0 8 "" 4096
          (Benchmark.run String.length World.initial
            [Benchmark.Call.malloc 0 8 "" 4096, Benchmark.Call.free 1 4096 0])).2).blocks 0 := by
  decide

/-- C8 (scenario A), as amended: for every size and context, when the calling
thread's ledger holds no entry for the address `h` the provider returns, or an
entry at 0, `llama2_malloc` returns `h`, leaves it contained in the
`allocated_blocks` of the class of the context and gives it a ledger count of 1;
the `llama2_free` called on it at once on the same thread, with that class,
lowers the count to 0 and leaves `h` not contained in the `allocated_blocks` of
that class. -/
theorem C8_allocate_then_release_of_fresh_block (hasher : String → Nat) (t : ThreadId)
    (size : Nat) (stack_trace : String) (h : Addr) (w : World)
    (hfresh : w.entry t h = none ∨ w.entry t h = some 0) :
    (Benchmark.llama2_malloc hasher t size stack_trace h w).1 = h
    ∧ h ∈ (Benchmark.llama2_malloc hasher t size stack_trace h w).2.blocks
          (Benchmark.predict_lifetime_transformer hasher stack_trace w).1
    ∧ (Benchmark.llama2_malloc hasher t size stack_trace h w).2.entry t h = some 1
    ∧ (Benchmark.llama2_free t h (Benchmark.predict_lifetime_transformer hasher stack_trace w).1
          (Benchmark.llama2_malloc hasher t size stack_trace h w).2).entry t h = some 0
    ∧ h ∉ (Benchmark.llama2_free t h
            (Benchmark.predict_lifetime_transformer hasher stack_trace w).1
            (Benchmark.llama2_malloc hasher t size stack_trace h w).2).blocks
          (Benchmark.predict_lifetime_transformer hasher stack_trace w).1 := by
  have h0 : w.count t h = 0 := by
    rw [count_eq_entry]
    rcases hfresh with e | e <;> simp [e]
  have h1 : (Benchmark.llama2_malloc hasher t size stack_trace h w).2.entry t h = some 1 := by
    rw [Benchmark.malloc_entry, if_pos ⟨rfl, rfl⟩, h0]
    rfl
  have h2 : (Benchmark.llama2_malloc hasher t size stack_trace h w).2.count t h = 1 := by
    rw [count_eq_entry, h1]
    rfl
  have h3 : int_wrap (1 - 1) = 0 := by decide
  refine ⟨rfl, ?_, h1, ?_, ?_⟩
  · rw [Benchmark.mem_malloc_blocks]
    exact Or.inr ⟨rfl, rfl⟩
  · rw [Benchmark.free_entry, if_pos ⟨rfl, rfl⟩, h2, h3]
  · rw [Benchmark.free_blocks, h2, h3, if_pos ⟨le_refl 0, rfl⟩]
    simp

/-- C8 (amended) in the initial state, for 128 bytes and the context `ctxA` of
the spec's scenario, the provider returning address 4096. -/
theorem C8_allocate_then_release_of_fresh_block_witness :
    (World.initial.entry 0 4096 = none ∨ World.initial.entry 0 4096 = some 0)
    ∧ ((Benchmark.llama2_malloc String.length 0 128 "ctxA" 4096 World.initial).1 = 4096
      ∧ 4096 ∈ (Benchmark.llama2_malloc String.length 0 128 "ctxA" 4096 World.initial).2.blocks
          (Benchmark.predict_lifetime_transformer String.length "ctxA" World.initial).1
      ∧ (Benchmark.llama2_malloc String.length 0 128 "ctxA" 4096 World.initial).2.entry 0 4096
          = some 1
      ∧ (Benchmark.llama2_free 0 4096
            (Benchmark.predict_lifetime_transformer String.length "ctxA" World.initial).1
            (Benchmark.llama2_malloc String.length 0 128 "ctxA" 4096 World.initial).2).entry
            0 4096 = some 0
      ∧ 4096 ∉ (Benchmark.llama2_free 0 4096
            (Benchmark.predict_lifetime_transformer String.length "ctxA" World.initial).1
            (Benchmark.llama2_malloc String.length 0 128 "ctxA" 4096 World.initial).2).blocks
          (Benchmark.predict_lifetime_transformer String.length "ctxA" World.initial).1) :=
  ⟨Or.inl rfl,
   C8_allocate_then_release_of_fresh_block String.length 0 128 "ctxA" 4096 World.initial
     (Or.inl rfl)⟩

/-- C9 (scenario B): for every size and context, two consecutive `llama2_malloc`
calls of one thread with the same context, for which the provider returns two
distinct addresses, return those two addresses, append both (the first before
the second) to the `allocated_blocks` of the class of the context, and give each
address a ledger entry of its own: each count is the address's own previous
count plus one, exactly 1 for an address without previous count, and the second
call leaves the entry of the first block as the first call made it. -/
theorem C9_two_allocations_same_context (hasher : String → Nat) (t : ThreadId) (size : Nat)
    (stack_trace : String) (p1 p2 : Addr) (w : World) (hdistinct : p1 ≠ p2) :
    (Benchmark.llama2_malloc hasher t size stack_trace p1 w).1 = p1
    ∧ (Benchmark.llama2_malloc hasher t size stack_trace p2
        (Benchmark.llama2_malloc hasher t size stack_trace p1 w).2).1 = p2
    ∧ (Benchmark.llama2_malloc hasher t size stack_trace p2
        (Benchmark.llama2_malloc hasher t size stack_trace p1 w).2).2.blocks
          (Benchmark.predict_lifetime_transformer hasher stack_trace w).1
        = w.blocks (Benchmark.predict_lifetime_transformer hasher stack_trace w).1 ++ [p1, p2]
    ∧ (Benchmark.llama2_malloc hasher t size stack_trace p2
        (Benchmark.llama2_malloc hasher t size stack_trace p1 w).2).2.entry t p1
        = some (int_wrap (w.count t p1 + 1))
    ∧ (Benchmark.llama2_malloc hasher t size stack_trace p2
        (Benchmark.llama2_malloc hasher t size stack_trace p1 w).2).2.entry t p1
        = (Benchmark.llama2_malloc hasher t size stack_trace p1 w).2.entry t p1
    ∧ (Benchmark.llama2_malloc hasher t size stack_trace p2
        (Benchmark.llama2_malloc hasher t size stack_trace p1 w).2).2.entry t p2
        = some (int_wrap (w.count t p2 + 1))
    ∧ (w.count t p1 = 0 → w.count t p2 = 0 →
        (Benchmark.llama2_malloc hasher t size stack_trace p2
          (Benchmark.llama2_malloc hasher t size stack_trace p1 w).2).2.entry t p1 = some 1
        ∧ (Benchmark.llama2_malloc hasher t size stack_trace p2
          (Benchmark.llama2_malloc hasher t size stack_trace p1 w).2).2.entry t p2 = some 1) := by
  have e1 : (Benchmark.llama2_malloc hasher t size stack_trace p2
        (Benchmark.llama2_malloc hasher t size stack_trace p1 w).2).2.entry t p1
        = some (int_wrap (w.count t p1 + 1)) := by
    rw [Benchmark.malloc_entry, if_neg (fun hh => hdistinct hh.2), Benchmark.malloc_entry,
      if_pos ⟨rfl, rfl⟩]
  have c2 : (Benchmark.llama2_malloc hasher t size stack_trace p1 w).2.count t p2
      = w.count t p2 := by
    rw [count_eq_entry, Benchmark.malloc_entry, if_neg (fun hh => hdistinct hh.2.symm),
      count_eq_entry]
  have e2 : (Benchmark.llama2_malloc hasher t size stack_trace p2
        (Benchmark.llama2_malloc hasher t size stack_trace p1 w).2).2.entry t p2
        = some (int_wrap (w.count t p2 + 1)) := by
    rw [Benchmark.malloc_entry, if_pos ⟨rfl, rfl⟩, c2]
  refine ⟨rfl, rfl, ?_, e1, ?_, e2, ?_⟩
  · rw [Benchmark.malloc_blocks, Benchmark.class_eq, if_pos rfl, Benchmark.malloc_blocks,
      if_pos rfl]
    simp
  · rw [e1, Benchmark.malloc_entry, if_pos ⟨rfl, rfl⟩]
  · intro z1 z2
    rw [e1, e2, z1, z2]
    exact ⟨rfl, rfl⟩

/-- C9 in the initial state, for 64 bytes and the context `ctxB` of the spec's
scenario, the provider returning 4096 and then 8192. -/
theorem C9_two_allocations_same_context_witness :
    (4096 : Addr) ≠ 8192
    ∧ (Benchmark.llama2_malloc String.length 0 64 "ctxB" 8192
        (Benchmark.llama2_malloc String.length 0 64 "ctxB" 4096 World.initial).2).2.blocks
          (Benchmark.predict_lifetime_transformer String.length "ctxB" World.initial).1
        = World.initial.blocks
            (Benchmark.predict_lifetime_transformer String.length "ctxB" World.initial).1
          ++ [4096, 8192] :=
  ⟨by decide,
   (C9_two_allocations_same_context String.length 0 64 "ctxB" 4096 8192 World.initial
      (by decide)).2.2.1⟩

/-! ## The ledger count after an allocation (C10) -/

/-- C10, the claim fails: thread 0 allocates address 4096, thread 1 releases it
(its own ledger had no entry for it, so the release leaves one at -1 and hands
the address back to the provider), then the provider returns 4096 to a
`llama2_malloc` of thread 1: afterwards thread 1's count for the block is 0,
not 1. -/
theorem C10_count_after_reuse_is_zero :
    (Benchmark.run String.length World.initial
        [Benchmark.Call.malloc 0 8 "" 4096, Benchmark.Call.free 1 4096 0]).provider_calls
      = [ProviderCall.malloc 8 4096, ProviderCall.free 4096]
    ∧ (Benchmark.run String.length World.initial
        [Benchmark.Call.malloc 0 8 "" 4096, Benchmark.Call.free 1 4096 0]).entry 1 4096
      = some (-1)
    ∧ (Benchmark.llama2_malloc String.length 1 8 "" 4096
        (Benchmark.run String.length World.initial
          [Benchmark.Call.malloc 0 8 "" 4096, Benchmark.Call.free 1 4096 0])).1 = 4096
    ∧ (Benchmark.llama2_malloc String.length 1 8 "" 4096
        (Benchmark.run String.length World.initial
          [Benchmark.Call.malloc 0 8 "" 4096, Benchmark.Call.free 1 4096 0])).2.entry 1 4096
      = some 0 := by
  decide

/-- C10, as amended: after `llama2_malloc` (of `llama2_benchmark.cpp` and of
`llama2.cpp`) returns block `p`, the calling thread's ledger count of `p` is its
count before the call, an absent entry counting as 0, raised by one in `int`
arithmetic: exactly 1 when there was no entry or an entry at 0, and 0 when
there was a lingering entry at -1. -/
theorem C10_allocation_increments_the_count (hasher : String → Nat) (rand_seq : Nat → Int)
    (t : ThreadId) (size : Nat) (stack_trace : String) (p : Addr) (w : World) :
    (Benchmark.llama2_malloc hasher t size stack_trace p w).2.entry t p
        = some (int_wrap (w.count t p + 1))
    ∧ (Llama2.llama2_malloc rand_seq t size stack_trace p w).2.entry t p
        = some (int_wrap (w.count t p + 1))
    ∧ (-2147483648 ≤ w.count t p → w.count t p < 2147483647 →
        int_wrap (w.count t p + 1) = w.count t p + 1)
    ∧ (w.count t p = 0 →
        (Benchmark.llama2_malloc hasher t size stack_trace p w).2.entry t p = some 1
        ∧ (Llama2.llama2_malloc rand_seq t size stack_trace p w).2.entry t p = some 1)
    ∧ (w.entry t p = some (-1) →
        (Benchmark.llama2_malloc hasher t size stack_trace p w).2.entry t p = some 0
        ∧ (Llama2.llama2_malloc rand_seq t size stack_trace p w).2.entry t p = some 0) := by
  have b : (Benchmark.llama2_malloc hasher t size stack_trace p w).2.entry t p
        = some (int_wrap (w.count t p + 1)) := by
    rw [Benchmark.malloc_entry, if_pos ⟨rfl, rfl⟩]
  have l : (Llama2.llama2_malloc rand_seq t size stack_trace p w).2.entry t p
        = some (int_wrap (w.count t p + 1)) := by
    rw [Llama2.malloc_entry_rand, if_pos ⟨rfl, rfl⟩]
  refine ⟨b, l, ?_, ?_, ?_⟩
  · intro h1 h2
    exact int_wrap_of_range _ (by omega) (by omega)
  · intro h0
    rw [b, l, h0]
    exact ⟨rfl, rfl⟩
  · intro h1
    have hc : w.count t p = -1 := by rw [count_eq_entry, h1]; rfl
    rw [b, l, hc]
    exact ⟨rfl, rfl⟩

/-! ## The ledger entry after a reclaiming release (C11) -/

/-- C11, the claim fails: thread 0 allocates address 4096 and releases it; the
release lowers the count to 0, removes the block from its Region and hands it to
the provider, and the ledger of thread 0 still holds an entry for 4096, at 0. -/
theorem C11_entry_survives_reclamation :
    (Benchmark.llama2_malloc String.length 0 8 "" 4096 World.initial).2.entry 0 4096 = some 1
    ∧ (Benchmark.llama2_free 0 4096 0
        (Benchmark.llama2_malloc String.length 0 8 "" 4096 World.initial).2).provider_calls
      = [ProviderCall.malloc 8 4096, ProviderCall.free 4096]
    ∧ (Benchmark.llama2_free 0 4096 0
        (Benchmark.llama2_malloc String.length 0 8 "" 4096 World.initial).2).blocks 0 = []
    ∧ (Benchmark.llama2_free 0 4096 0
        (Benchmark.llama2_malloc String.length 0 8 "" 4096 World.initial).2).entry 0 4096
      = some 0
    ∧ (Benchmark.llama2_free 0 4096 0
        (Benchmark.llama2_malloc String.length 0 8 "" 4096 World.initial).2).entry 0 4096
      ≠ none := by
  decide

/-- C11, as amended: if `llama2_free(p, c)` (of `llama2_benchmark.cpp` and of
`llama2.cpp`) lowers the count of `p` to a value `<= 0`, the call takes every
occurrence of `p` out of the `allocated_blocks` of class `c` and hands `p` to
the provider's `free`, and after the call the calling thread's ledger still
holds the entry of `p`, at that lowered count. In `llama2_benchmark.cpp` the
entry is removed by a later `synchronize_reference_counts` of that thread; the
pass of `llama2.cpp` has no defined outcome in the state such a release
leaves. -/
theorem C11_reclaimed_entry_lingers_until_synchronized (t : ThreadId) (p : Addr) (c : Int)
    (w : World) (hle : (Benchmark.llama2_free t p c w).count t p ≤ 0) :
    ((Benchmark.llama2_free t p c w).entry t p = some (int_wrap (w.count t p - 1))
      ∧ int_wrap (w.count t p - 1) ≤ 0
      ∧ (Benchmark.llama2_free t p c w).blocks c
          = (w.blocks c).filter (fun q => decide (q ≠ p))
      ∧ p ∉ (Benchmark.llama2_free t p c w).blocks c
      ∧ (Benchmark.llama2_free t p c w).provider_calls
          = w.provider_calls ++ [ProviderCall.free p])
    ∧ ((Llama2.llama2_free t p c w).entry t p = some (int_wrap (w.count t p - 1))
      ∧ (Llama2.llama2_free t p c w).blocks c
          = (w.blocks c).filter (fun q => decide (q ≠ p))
      ∧ p ∉ (Llama2.llama2_free t p c w).blocks c
      ∧ (Llama2.llama2_free t p c w).provider_calls
          = w.provider_calls ++ [ProviderCall.free p])
    ∧ (Benchmark.synchronize_reference_counts t (Benchmark.llama2_free t p c w)).entry t p
        = none
    ∧ (∀ w', ¬ Llama2.synchronize_reference_counts t (Llama2.llama2_free t p c w) w') := by
  have hR : int_wrap (w.count t p - 1) ≤ 0 := by
    rw [Benchmark.free_count, if_pos ⟨rfl, rfl⟩] at hle
    exact hle
  have b : (Benchmark.llama2_free t p c w).entry t p = some (int_wrap (w.count t p - 1)) := by
    rw [Benchmark.free_entry, if_pos ⟨rfl, rfl⟩]
  have bb : (Benchmark.llama2_free t p c w).blocks c
      = (w.blocks c).filter (fun q => decide (q ≠ p)) := by
    rw [Benchmark.free_blocks, if_pos ⟨hR, rfl⟩]
  have l : (Llama2.llama2_free t p c w).entry t p = some (int_wrap (w.count t p - 1)) := by
    rw [Llama2.free_entry_plain, if_pos ⟨rfl, rfl⟩]
  have lb : (Llama2.llama2_free t p c w).blocks c
      = (w.blocks c).filter (fun q => decide (q ≠ p)) := by
    rw [Llama2.free_blocks_plain, if_pos ⟨hR, rfl⟩]
  refine ⟨⟨b, hR, bb, ?_, ?_⟩, ⟨l, lb, ?_, ?_⟩, ?_, ?_⟩
  · rw [bb]
    simp
  · rw [Benchmark.free_calls, if_pos hR]
  · rw [lb]
    simp
  · rw [Llama2.free_calls_plain, if_pos hR]
  · rw [Benchmark.sync_entry, if_pos rfl, b]
    simp [hR]
  · intro w' hw'
    have hpos : ∀ q n, (Llama2.llama2_free t p c w).entry t q = some n → 0 < n := by
      cases hw' with
      | nothing_erased h => exact h
    exact absurd (hpos p _ l) (not_lt.mpr hR)

/-- C11 (amended) at the release of a block that thread 0 has just allocated:
the block leaves its Region and the entry stays. -/
theorem C11_reclaimed_entry_lingers_until_synchronized_witness :
    (Benchmark.llama2_free 0 4096 0
        (Benchmark.llama2_malloc String.length 0 8 "" 4096 World.initial).2).count 0 4096 ≤ 0
    ∧ ((Benchmark.llama2_free 0 4096 0
          (Benchmark.llama2_malloc String.length 0 8 "" 4096 World.initial).2).entry 0 4096
        = some (int_wrap
            ((Benchmark.llama2_malloc String.length 0 8 "" 4096 World.initial).2.count 0 4096
              - 1))
      ∧ int_wrap
          ((Benchmark.llama2_malloc String.length 0 8 "" 4096 World.initial).2.count 0 4096 - 1)
        ≤ 0
      ∧ (Benchmark.llama2_free 0 4096 0
          (Benchmark.llama2_malloc String.length 0 8 "" 4096 World.initial).2).blocks 0
        = ((Benchmark.llama2_malloc String.length 0 8 "" 4096 World.initial).2.blocks 0).filter
            (fun q => decide (q ≠ 4096))
      ∧ 4096 ∉ (Benchmark.llama2_free 0 4096 0
          (Benchmark.llama2_malloc String.length 0 8 "" 4096 World.initial).2).blocks 0
      ∧ (Benchmark.llama2_free 0 4096 0
          (Benchmark.llama2_malloc String.length 0 8 "" 4096 World.initial).2).provider_calls
        = (Benchmark.llama2_malloc String.length 0 8 "" 4096 World.initial).2.provider_calls
          ++ [ProviderCall.free 4096]) :=
  ⟨by decide,
   (C11_reclaimed_entry_lingers_until_synchronized 0 4096 0
      (Benchmark.llama2_malloc String.length 0 8 "" 4096 World.initial).2 (by decide)).1⟩

/-! ## A release that does not reclaim (C12) -/

/-- C12: when the calling thread's count of `p` is at least 2 (and an `int`),
`llama2_free(p, c)` lowers it by one and does nothing else: the new count is
above 0, the region table is the same map as before, so every Region's
`allocated_blocks` is unchanged and `p` stays where it was registered, and no
call reaches the provider. -/
theorem C12_release_above_one_only_decrements (t : ThreadId) (p : Addr) (c : Int) (w : World)
    (htwo : 2 ≤ w.count t p) (hint : w.count t p ≤ 2147483647) :
    (Benchmark.llama2_free t p c w).entry t p = some (w.count t p - 1)
    ∧ 0 < (Benchmark.llama2_free t p c w).count t p
    ∧ (Benchmark.llama2_free t p c w).lifetime_memory_map = w.lifetime_memory_map
    ∧ (∀ c', (Benchmark.llama2_free t p c w).blocks c' = w.blocks c')
    ∧ (Benchmark.llama2_free t p c w).provider_calls = w.provider_calls
    ∧ (Benchmark.llama2_free t p c w).releases p = w.releases p := by
  have hw : int_wrap (w.count t p - 1) = w.count t p - 1 :=
    int_wrap_of_range _ (by omega) (by omega)
  have hR : ¬ int_wrap (w.count t p - 1) ≤ 0 := by
    rw [hw]
    omega
  have hfree : Benchmark.llama2_free t p c w
      = w.set_count t p (int_wrap (w.count t p - 1)) := Benchmark.free_of_keep t p c w hR
  have e : (Benchmark.llama2_free t p c w).entry t p = some (w.count t p - 1) := by
    rw [Benchmark.free_entry, if_pos ⟨rfl, rfl⟩, hw]
  have hcalls : (Benchmark.llama2_free t p c w).provider_calls = w.provider_calls := by
    rw [Benchmark.free_calls, if_neg hR]
  refine ⟨e, ?_, ?_, ?_, hcalls, ?_⟩
  · rw [count_eq_entry, e]
    show 0 < w.count t p - 1
    omega
  · rw [hfree]
    rfl
  · intro c'
    rw [Benchmark.free_blocks, if_neg (fun h => hR h.1)]
  · unfold World.releases
    rw [hcalls]

/-- C12 on address 4096 after thread 0 has allocated it, thread 1 has released
it and the provider has returned it to thread 0 again, which leaves thread 0
with a count of 2. -/
theorem C12_release_above_one_only_decrements_witness :
    2 ≤ (Benchmark.run String.length World.initial
          [Benchmark.Call.malloc 0 8 "" 4096, Benchmark.Call.free 1 4096 0,
            Benchmark.Call.malloc 0 8 "" 4096]).count 0 4096
    ∧ (Benchmark.llama2_free 0 4096 0
        (Benchmark.run String.length World.initial
          [Benchmark.Call.malloc 0 8 "" 4096, Benchmark.Call.free 1 4096 0,
            Benchmark.Call.malloc 0 8 "" 4096])).entry 0 4096
      = some ((Benchmark.run String.length World.initial
          [Benchmark.Call.malloc 0 8 "" 4096, Benchmark.Call.free 1 4096 0,
            Benchmark.Call.malloc 0 8 "" 4096]).count 0 4096 - 1) :=
  ⟨by decide,
   (C12_release_above_one_only_decrements 0 4096 0
      (Benchmark.run String.length World.initial
        [Benchmark.Call.malloc 0 8 "" 4096, Benchmark.Call.free 1 4096 0,
          Benchmark.Call.malloc 0 8 "" 4096])
      (by decide) (by decide)).1⟩

/-! ## What a release leaves alone (C13) -/

/-- C13: `llama2_free(p, c)` on thread `t` leaves the Region of every class
other than `c` as it was (its entry in the table and its `allocated_blocks`),
leaves the entries of thread `t` for every address other than `p` as they were,
and leaves the whole ledger of every other thread as it was. -/
theorem C13_release_touches_one_region_and_one_ledger (t : ThreadId) (p : Addr) (c : Int)
    (w : World) :
    (∀ c', c' ≠ c →
        (Benchmark.llama2_free t p c w).lifetime_memory_map c' = w.lifetime_memory_map c')
    ∧ (∀ c', c' ≠ c → (Benchmark.llama2_free t p c w).blocks c' = w.blocks c')
    ∧ (∀ q, q ≠ p → (Benchmark.llama2_free t p c w).entry t q = w.entry t q)
    ∧ (∀ u, u ≠ t →
        (Benchmark.llama2_free t p c w).thread_local_reference_count u
          = w.thread_local_reference_count u) := by
  refine ⟨?_, ?_, ?_, ?_⟩
  · intro c' hc
    by_cases h : int_wrap (w.count t p - 1) ≤ 0
    · rw [Benchmark.free_of_reclaim t p c w h]
      simp [World.log, World.set_blocks, World.set_count, UMap.put, hc]
    · rw [Benchmark.free_of_keep t p c w h]
      rfl
  · intro c' hc
    rw [Benchmark.free_blocks, if_neg (fun h => hc h.2)]
  · intro q hq
    rw [Benchmark.free_entry, if_neg (fun h => hq h.2)]
  · intro u hu
    by_cases h : int_wrap (w.count t p - 1) ≤ 0
    · rw [Benchmark.free_of_reclaim t p c w h]
      simp [World.log, World.set_blocks, World.set_count, hu]
    · rw [Benchmark.free_of_keep t p c w h]
      simp [World.set_count, hu]

/-! ## Whose ledger the synchronisation pass purges (C14) -/

/-- C14, the claim fails: thread 0 allocates address 4096 and thread 1 releases
it, which leaves an entry at -1 in the ledger of thread 1. After
`synchronize_reference_counts` has run on thread 0, that entry of thread 1 is
still there. -/
theorem C14_other_thread_keeps_its_dead_entry :
    (Benchmark.run String.length World.initial
        [Benchmark.Call.malloc 0 8 "" 4096, Benchmark.Call.free 1 4096 0]).entry 1 4096
      = some (-1)
    ∧ (Benchmark.synchronize_reference_counts 0
        (Benchmark.run String.length World.initial
          [Benchmark.Call.malloc 0 8 "" 4096, Benchmark.Call.free 1 4096 0])).entry 1 4096
      = some (-1) := by
  decide

/-- C14, as amended: after `synchronize_reference_counts` of
`llama2_benchmark.cpp` returns, the ledger of the thread that called it holds no
entry with a count `<= 0`, and the ledger of every other thread is exactly as it
was before the call. The pass of `llama2.cpp` has a defined outcome exactly when
the calling thread's ledger holds no such entry to begin with, and then leaves
the whole state, the other threads' ledgers included, as it was. -/
theorem C14_synchronize_purges_the_calling_thread_only (t : ThreadId) (w : World) :
    (∀ p n, (Benchmark.synchronize_reference_counts t w).entry t p = some n → 0 < n)
    ∧ (∀ u, u ≠ t →
        (Benchmark.synchronize_reference_counts t w).thread_local_reference_count u
          = w.thread_local_reference_count u)
    ∧ (∀ w', Llama2.synchronize_reference_counts t w w' →
        w' = w ∧ ∀ p n, w'.entry t p = some n → 0 < n)
    ∧ ((∀ p n, w.entry t p = some n → 0 < n) → Llama2.synchronize_reference_counts t w w) := by
  refine ⟨?_, ?_, ?_, ?_⟩
  · intro p n hn
    rw [Benchmark.sync_entry, if_pos rfl] at hn
    cases hp : w.entry t p with
    | none => simp [hp] at hn
    | some m =>
      by_cases hm : m ≤ 0
      · simp [hp, hm] at hn
      · simp only [hp, if_neg hm] at hn
        rw [← Option.some.inj hn]
        exact not_le.mp hm
  · intro u hu
    unfold Benchmark.synchronize_reference_counts
    simp [hu]
  · intro w' hw'
    cases hw' with
    | nothing_erased h => exact ⟨rfl, h⟩
  · intro h
    exact Llama2.synchronize_reference_counts.nothing_erased w h

/-! ## Releasing an address nobody knows (C15) -/

/-- C15, the claim fails: in the initial state address 4096 is in no ledger and
in no Region; `llama2_free(4096, 0)` nevertheless runs to its end, creates a
ledger entry at -1 for it, creates the Region of class 0 and hands 4096 to the
provider's `free`. -/
theorem C15_unknown_block_is_released :
    World.initial.entry 0 4096 = none
    ∧ World.initial.lifetime_memory_map 0 = none
    ∧ World.initial.provider_calls = []
    ∧ (Benchmark.llama2_free 0 4096 0 World.initial).entry 0 4096 = some (-1)
    ∧ (Benchmark.llama2_free 0 4096 0 World.initial).lifetime_memory_map 0 = some ⟨[]⟩
    ∧ (Benchmark.llama2_free 0 4096 0 World.initial).provider_calls
      = [ProviderCall.free 4096] := by
  decide

/-- C15, as amended: for an address `p` that is in no ledger and in no Region,
`llama2_free(p, c)` reports nothing to its caller: it creates an entry at -1 for
`p` in the calling thread's ledger, leaves every other ledger entry and the
`allocated_blocks` of every Region as they were, and hands `p` to the provider's
`free`. -/
theorem C15_unknown_block_goes_to_the_provider (t : ThreadId) (p : Addr) (c : Int) (w : World)
    (hledger : ∀ u, w.entry u p = none) (hregion : ∀ c', p ∉ w.blocks c') :
    (Benchmark.llama2_free t p c w).entry t p = some (-1)
    ∧ (∀ u q, ¬ (u = t ∧ q = p) → (Benchmark.llama2_free t p c w).entry u q = w.entry u q)
    ∧ (∀ c', (Benchmark.llama2_free t p c w).blocks c' = w.blocks c')
    ∧ (Benchmark.llama2_free t p c w).provider_calls
        = w.provider_calls ++ [ProviderCall.free p] := by
  have h0 : w.count t p = 0 := by
    rw [count_eq_entry, hledger t]
    rfl
  have hm : int_wrap (0 - 1) = -1 := by decide
  have hR : int_wrap (w.count t p - 1) ≤ 0 := by
    rw [h0, hm]
    decide
  refine ⟨?_, ?_, ?_, ?_⟩
  · rw [Benchmark.free_entry, if_pos ⟨rfl, rfl⟩, h0, hm]
  · intro u q h
    rw [Benchmark.free_entry, if_neg h]
  · intro c'
    rw [Benchmark.free_blocks]
    by_cases hc : c' = c
    · subst hc
      rw [if_pos ⟨hR, rfl⟩]
      apply List.filter_eq_self.mpr
      intro q hq
      have : q ≠ p := fun e => hregion c' (e ▸ hq)
      simpa using this
    · rw [if_neg (fun h => hc h.2)]
  · rw [Benchmark.free_calls, if_pos hR]

/-- C15 (amended) in the initial state, for address 4096 and class 0. -/
theorem C15_unknown_block_goes_to_the_provider_witness :
    (∀ u, World.initial.entry u 4096 = none)
    ∧ (∀ c', 4096 ∉ World.initial.blocks c')
    ∧ (Benchmark.llama2_free 0 4096 0 World.initial).provider_calls
        = World.initial.provider_calls ++ [ProviderCall.free 4096] :=
  ⟨fun _ => rfl, fun _ h => absurd h (List.not_mem_nil _),
   (C15_unknown_block_goes_to_the_provider 0 4096 0 World.initial (fun _ => rfl)
      (fun _ h => absurd h (List.not_mem_nil _))).2.2.2⟩

/-! ## Releasing on a thread without entry (C17) -/

/-- C17: when the calling thread's ledger has no entry for `p`, `llama2_free(p, c)`
(of `llama2_benchmark.cpp` and of `llama2.cpp`) leaves an entry at -1, the count
it tests, and takes the reclamation path: every occurrence of `p` is taken out
of the `allocated_blocks` of class `c`, and `p` is handed to the provider's
`free`. -/
theorem C17_release_without_entry_reclaims (t : ThreadId) (p : Addr) (c : Int) (w : World)
    (hnone : w.entry t p = none) :
    (Benchmark.llama2_free t p c w).entry t p = some (-1)
    ∧ (Benchmark.llama2_free t p c w).count t p = -1
    ∧ (Benchmark.llama2_free t p c w).blocks c
        = (w.blocks c).filter (fun q => decide (q ≠ p))
    ∧ p ∉ (Benchmark.llama2_free t p c w).blocks c
    ∧ (Benchmark.llama2_free t p c w).provider_calls
        = w.provider_calls ++ [ProviderCall.free p]
    ∧ (Llama2.llama2_free t p c w).entry t p = some (-1)
    ∧ p ∉ (Llama2.llama2_free t p c w).blocks c
    ∧ (Llama2.llama2_free t p c w).provider_calls
        = w.provider_calls ++ [ProviderCall.free p] := by
  have h0 : w.count t p = 0 := by
    rw [count_eq_entry, hnone]
    rfl
  have hm : int_wrap (0 - 1) = -1 := by decide
  have hR : int_wrap (w.count t p - 1) ≤ 0 := by
    rw [h0, hm]
    decide
  have e : (Benchmark.llama2_free t p c w).entry t p = some (-1) := by
    rw [Benchmark.free_entry, if_pos ⟨rfl, rfl⟩, h0, hm]
  have b : (Benchmark.llama2_free t p c w).blocks c
      = (w.blocks c).filter (fun q => decide (q ≠ p)) := by
    rw [Benchmark.free_blocks, if_pos ⟨hR, rfl⟩]
  refine ⟨e, ?_, b, ?_, ?_, ?_, ?_, ?_⟩
  · rw [count_eq_entry, e]
    rfl
  · rw [b]
    simp
  · rw [Benchmark.free_calls, if_pos hR]
  · rw [Llama2.free_entry_plain, if_pos ⟨rfl, rfl⟩, h0, hm]
  · rw [Llama2.free_blocks_plain, if_pos ⟨hR, rfl⟩]
    simp
  · rw [Llama2.free_calls_plain, if_pos hR]

/-- C17 at thread 1 releasing address 4096, which thread 0 has allocated. -/
theorem C17_release_without_entry_reclaims_witness :
    (Benchmark.llama2_malloc String.length 0 8 "" 4096 World.initial).2.entry 1 4096 = none
    ∧ 4096 ∈ (Benchmark.llama2_malloc String.length 0 8 "" 4096 World.initial).2.blocks 0
    ∧ 4096 ∉ (Benchmark.llama2_free 1 4096 0
        (Benchmark.llama2_malloc String.length 0 8 "" 4096 World.initial).2).blocks 0 :=
  ⟨by decide, by decide,
   (C17_release_without_entry_reclaims 1 4096 0
      (Benchmark.llama2_malloc String.length 0 8 "" 4096 World.initial).2
      (by decide)).2.2.2.1⟩

/-! ## The round trip of an allocation and its release (C18) -/

namespace Benchmark

theorem pair_restores (hasher : String → Nat) (t : ThreadId) (size : Nat)
    (stack_trace : String) (p : Addr) (w : World)
    (hp : p ∉ w.blocks (predict_lifetime_transformer hasher stack_trace w).1)
    (h0 : w.count t p = 0) :
    (∀ c, (llama2_free t p (predict_lifetime_transformer hasher stack_trace w).1
            (llama2_malloc hasher t size stack_trace p w).2).blocks c = w.blocks c)
    ∧ (∀ q, (llama2_free t p (predict_lifetime_transformer hasher stack_trace w).1
            (llama2_malloc hasher t size stack_trace p w).2).count t q = w.count t q) := by
  have one_up : int_wrap (0 + 1) = 1 := by decide
  have one_down : int_wrap (1 - 1) = 0 := by decide
  have h1 : (llama2_malloc hasher t size stack_trace p w).2.count t p = 1 := by
    rw [malloc_count, if_pos ⟨rfl, rfl⟩, h0, one_up]
  rw [class_eq] at hp ⊢
  constructor
  · intro c
    rw [free_blocks, h1, one_down]
    by_cases hc : c = ((hasher stack_trace % 3 : Nat) : Int)
    · subst hc
      rw [if_pos ⟨le_refl 0, rfl⟩, malloc_blocks, if_pos rfl, List.filter_append]
      have keep : (w.blocks ((hasher stack_trace % 3 : Nat) : Int)).filter
          (fun q => decide (q ≠ p)) = w.blocks ((hasher stack_trace % 3 : Nat) : Int) := by
        apply List.filter_eq_self.mpr
        intro q hq
        have : q ≠ p := fun e => hp (e ▸ hq)
        simpa using this
      rw [keep]
      simp
    · rw [if_neg (fun h => hc h.2), malloc_blocks, if_neg hc]
  · intro q
    rw [free_count, h1, one_down]
    by_cases hq : q = p
    · subst hq
      rw [if_pos ⟨rfl, rfl⟩, h0]
    · rw [if_neg (fun h => hq h.2), malloc_count, if_neg (fun h => hq h.2)]

theorem loop_restores (hasher : String → Nat) (t : ThreadId) (allocation_size : Nat)
    (malloc_results : Nat → Addr) (remaining : Nat) :
    ∀ (i : Nat) (w : World),
      (∀ j, i ≤ j → j < i + remaining →
        malloc_results j ∉ w.blocks
            (predict_lifetime_transformer hasher ("benchmark_stack_trace_" ++ toString j) w).1
        ∧ w.count t (malloc_results j) = 0) →
      ∀ c, (benchmark_loop hasher t allocation_size malloc_results remaining i w).blocks c
        = w.blocks c := by
  induction remaining with
  | zero => intro i w _ c; rfl
  | succ k ih =>
    intro i w h c
    obtain ⟨hb, hc⟩ := pair_restores hasher t allocation_size
      ("benchmark_stack_trace_" ++ toString i) (malloc_results i) w
      (h i (le_refl i) (by omega)).1 (h i (le_refl i) (by omega)).2
    show (benchmark_loop hasher t allocation_size malloc_results k (i + 1)
      (llama2_free t (malloc_results i)
        (predict_lifetime_transformer hasher ("benchmark_stack_trace_" ++ toString i) w).1
        (llama2_malloc hasher t allocation_size ("benchmark_stack_trace_" ++ toString i)
          (malloc_results i) w).2)).blocks c = w.blocks c
    rw [ih (i + 1) _ ?_ c, hb c]
    intro j hj1 hj2
    have hj := h j (by omega) (by omega)
    refine ⟨?_, ?_⟩
    · rw [hb]
      exact hj.1
    · rw [hc]
      exact hj.2

end Benchmark

/-- C18: when the address `p` the provider returns is not contained in the
`allocated_blocks` of the class of the context and the calling thread's ledger
has no entry for it or one at 0, `llama2_malloc(size, ctx)` followed by
`llama2_free(p, class of ctx)` leaves the `allocated_blocks` of every class
exactly the list it was before the pair. Consequently `benchmark_allocation`,
whose iterations are such pairs, leaves every Region's list, and so its size,
as it was, whenever each address the provider returns during the run meets that
condition in the state the run starts in. -/
theorem C18_allocate_release_round_trip (hasher : String → Nat) (t : ThreadId) (size : Nat)
    (stack_trace : String) (p : Addr) (w : World)
    (hp : p ∉ w.blocks (Benchmark.predict_lifetime_transformer hasher stack_trace w).1)
    (hfresh : w.entry t p = none ∨ w.entry t p = some 0) :
    (∀ c, (Benchmark.llama2_free t p
            (Benchmark.predict_lifetime_transformer hasher stack_trace w).1
            (Benchmark.llama2_malloc hasher t size stack_trace p w).2).blocks c = w.blocks c)
    ∧ (∀ (num_allocations : Int) (allocation_size : Nat) (malloc_results : Nat → Addr)
        (w0 : World),
        (∀ i : Nat, (i : Int) < num_allocations →
          malloc_results i ∉ w0.blocks
              (Benchmark.predict_lifetime_transformer hasher
                ("benchmark_stack_trace_" ++ toString i) w0).1
          ∧ (w0.entry t (malloc_results i) = none ∨ w0.entry t (malloc_results i) = some 0)) →
        ∀ c,
          (Benchmark.benchmark_allocation hasher t num_allocations allocation_size
              malloc_results w0).blocks c = w0.blocks c
          ∧ ((Benchmark.benchmark_allocation hasher t num_allocations allocation_size
              malloc_results w0).blocks c).length = (w0.blocks c).length) := by
  have zero_of : ∀ (v : World) (q : Addr),
      (v.entry t q = none ∨ v.entry t q = some 0) → v.count t q = 0 := by
    intro v q h
    rw [count_eq_entry]
    rcases h with e | e <;> simp [e]
  refine ⟨(Benchmark.pair_restores hasher t size stack_trace p w hp (zero_of w p hfresh)).1, ?_⟩
  intro num_allocations allocation_size malloc_results w0 h c
  have key : (Benchmark.benchmark_allocation hasher t num_allocations allocation_size
      malloc_results w0).blocks c = w0.blocks c := by
    unfold Benchmark.benchmark_allocation
    apply Benchmark.loop_restores
    intro j _ hj
    have hj' : (j : Int) < num_allocations := by omega
    exact ⟨(h j hj').1, zero_of w0 _ (h j hj').2⟩
  exact ⟨key, by rw [key]⟩

/-- C18 in the initial state, for 128 bytes, the context `ctxA` and the provider
returning address 4096. -/
theorem C18_allocate_release_round_trip_witness :
    4096 ∉ World.initial.blocks
        (Benchmark.predict_lifetime_transformer String.length "ctxA" World.initial).1
    ∧ (World.initial.entry 0 4096 = none ∨ World.initial.entry 0 4096 = some 0)
    ∧ (∀ c, (Benchmark.llama2_free 0 4096
            (Benchmark.predict_lifetime_transformer String.length "ctxA" World.initial).1
            (Benchmark.llama2_malloc String.length 0 128 "ctxA" 4096 World.initial).2).blocks c
          = World.initial.blocks c) :=
  ⟨by decide, Or.inl rfl,
   (C18_allocate_release_round_trip String.length 0 128 "ctxA" 4096 World.initial
      (by decide) (Or.inl rfl)).1⟩

/-! ## Running the synchronisation pass twice (C19) -/

/-- C19: after `synchronize_reference_counts` the calling thread's ledger holds
exactly the entries that had a count above 0 before the call, with their counts,
so no entry with a count `<= 0` is left; and a second call right after the first
leaves the state as the first call left it. -/
theorem C19_synchronize_is_complete_and_idempotent (t : ThreadId) (w : World) :
    (∀ p n, (Benchmark.synchronize_reference_counts t w).entry t p = some n
        ↔ (w.entry t p = some n ∧ 0 < n))
    ∧ (∀ p n, (Benchmark.synchronize_reference_counts t w).entry t p = some n → 0 < n)
    ∧ Benchmark.synchronize_reference_counts t (Benchmark.synchronize_reference_counts t w)
        = Benchmark.synchronize_reference_counts t w := by
  have key : ∀ p n, (Benchmark.synchronize_reference_counts t w).entry t p = some n
      ↔ (w.entry t p = some n ∧ 0 < n) := by
    intro p n
    rw [Benchmark.sync_entry, if_pos rfl]
    cases hp : w.entry t p with
    | none => simp
    | some m =>
      by_cases hm : m ≤ 0
      · simp only [if_pos hm]
        constructor
        · intro h
          exact absurd h (by simp)
        · rintro ⟨h1, h2⟩
          rw [Option.some.inj h1] at hm
          omega
      · simp only [if_neg hm]
        constructor
        · intro h
          refine ⟨h, ?_⟩
          rw [← Option.some.inj h]
          omega
        · intro h
          exact h.1
  refine ⟨key, fun p n h => ((key p n).mp h).2, ?_⟩
  have hmap : ∀ u, (Benchmark.synchronize_reference_counts t
        (Benchmark.synchronize_reference_counts t w)).thread_local_reference_count u
      = (Benchmark.synchronize_reference_counts t w).thread_local_reference_count u := by
    intro u
    funext p
    show (Benchmark.synchronize_reference_counts t
        (Benchmark.synchronize_reference_counts t w)).entry u p
      = (Benchmark.synchronize_reference_counts t w).entry u p
    rw [Benchmark.sync_entry]
    by_cases hu : u = t
    · subst hu
      rw [if_pos rfl]
      cases hq : (Benchmark.synchronize_reference_counts u w).entry u p with
      | none => rfl
      | some n =>
        have hpos : 0 < n := ((key p n).mp hq).2
        simp [not_le.mpr hpos]
    · rw [if_neg hu]
  show ({ (Benchmark.synchronize_reference_counts t w) with
      thread_local_reference_count := _ } : World) = _
  cases hw : Benchmark.synchronize_reference_counts t w with
  | mk m l c r =>
    have hl := funext hmap
    rw [hw] at hl
    simp only [Benchmark.synchronize_reference_counts] at hl ⊢
    simp only [World.mk.injEq, true_and, and_true]
    exact hl

/-! ## What the reclamation path does to the Region (C20) -/

theorem filter_ne_spec (p : Addr) (l : List Addr) :
    p ∉ l.filter (fun q => decide (q ≠ p))
    ∧ (∀ q, q ≠ p → (l.filter (fun q => decide (q ≠ p))).count q = l.count q)
    ∧ List.Sublist (l.filter (fun q => decide (q ≠ p))) l
    ∧ (p ∉ l → l.filter (fun q => decide (q ≠ p)) = l) := by
  refine ⟨?_, ?_, List.filter_sublist l, ?_⟩
  · simp
  · intro q hq
    rw [List.count_filter]
    simpa using hq
  · intro hp
    apply List.filter_eq_self.mpr
    intro q hq
    have : q ≠ p := fun e => hp (e ▸ hq)
    simpa using this

/-- C20: when `llama2_free(p, c)` lowers the count to a value `<= 0`, the
`allocated_blocks` of class `c` afterwards no longer contains `p` at all,
contains every other address as many times as before, and is a sublist of the
previous list, so the addresses that stay keep their relative order; if `p` was
not in the list, the list is unchanged. `llama_free(p, c)` of `llama.cpp` does
the same to the list on every call. -/
theorem C20_reclamation_removes_every_occurrence (t : ThreadId) (p : Addr) (c : Int)
    (w : World) (hle : (Benchmark.llama2_free t p c w).count t p ≤ 0) :
    (p ∉ (Benchmark.llama2_free t p c w).blocks c
      ∧ (∀ q, q ≠ p →
          ((Benchmark.llama2_free t p c w).blocks c).count q = (w.blocks c).count q)
      ∧ List.Sublist ((Benchmark.llama2_free t p c w).blocks c) (w.blocks c)
      ∧ (p ∉ w.blocks c → (Benchmark.llama2_free t p c w).blocks c = w.blocks c))
    ∧ (p ∉ (Llama.llama_free p c w).blocks c
      ∧ (∀ q, q ≠ p → ((Llama.llama_free p c w).blocks c).count q = (w.blocks c).count q)
      ∧ List.Sublist ((Llama.llama_free p c w).blocks c) (w.blocks c)
      ∧ (p ∉ w.blocks c → (Llama.llama_free p c w).blocks c = w.blocks c)) := by
  have hR : int_wrap (w.count t p - 1) ≤ 0 := by
    rw [Benchmark.free_count, if_pos ⟨rfl, rfl⟩] at hle
    exact hle
  have b : (Benchmark.llama2_free t p c w).blocks c
      = (w.blocks c).filter (fun q => decide (q ≠ p)) := by
    rw [Benchmark.free_blocks, if_pos ⟨hR, rfl⟩]
  have l : (Llama.llama_free p c w).blocks c
      = (w.blocks c).filter (fun q => decide (q ≠ p)) := by
    simp [Llama.llama_free]
  rw [b, l]
  exact ⟨filter_ne_spec p (w.blocks c), filter_ne_spec p (w.blocks c)⟩

/-- C20 on a Region that holds address 4096 twice, around 8192: thread 0
allocates 4096 and 8192 in class 0, thread 1 releases 4096 with class 1, which
leaves it registered in class 0, and the provider returns 4096 to thread 0
again; a release of 4096 with class 0 by thread 1 then leaves only 8192. -/
theorem C20_reclamation_removes_every_occurrence_witness :
    (Benchmark.run String.length World.initial
        [Benchmark.Call.malloc 0 8 "" 4096, Benchmark.Call.malloc 0 8 "" 8192,
          Benchmark.Call.free 1 4096 1, Benchmark.Call.malloc 0 8 "" 4096]).blocks 0
      = [4096, 8192, 4096]
    ∧ (Benchmark.llama2_free 1 4096 0
        (Benchmark.run String.length World.initial
          [Benchmark.Call.malloc 0 8 "" 4096, Benchmark.Call.malloc 0 8 "" 8192,
            Benchmark.Call.free 1 4096 1, Benchmark.Call.malloc 0 8 "" 4096])).count 1 4096 ≤ 0
    ∧ 4096 ∉ (Benchmark.llama2_free 1 4096 0
        (Benchmark.run String.length World.initial
          [Benchmark.Call.malloc 0 8 "" 4096, Benchmark.Call.malloc 0 8 "" 8192,
            Benchmark.Call.free 1 4096 1, Benchmark.Call.malloc 0 8 "" 4096])).blocks 0 :=
  ⟨by decide, by decide,
   (C20_reclamation_removes_every_occurrence 1 4096 0
      (Benchmark.run String.length World.initial
        [Benchmark.Call.malloc 0 8 "" 4096, Benchmark.Call.malloc 0 8 "" 8192,
          Benchmark.Call.free 1 4096 1, Benchmark.Call.malloc 0 8 "" 4096])
      (by decide)).1.1⟩

end LlamaAlloc
